import Mathlib

/-!
Verification development for the WebRx expression compiler
(`src/Core/VirtualChildNodes.ts`, module `wx.compiler`): the object-literal
tokenizer `parseObjectLiteral`, the expression `Lexer` and `Parser`, the
property-path getters (`simpleGetterFn1`, `simpleGetterFn2`,
`cspSafeGetterFn`, `getterFn`) and `setter`, the sandbox guard
(`ensureSafeMemberName`, `ensureSafeObject`), the runtime-hook indirection
(`getRuntimeHooks`) and the two caches (`getterFnCache`, the caller-supplied
expression cache of `compileExpression`).

Modelling conventions for JavaScript features that have no direct Lean
counterpart:
* numbers are integers (`Int`); IEEE-754 rounding, signed zero, the
  infinities and non-integral values are outside the model — `NaN` is the
  dedicated value `JSVal.nan`, and an operation whose exact result would
  not be an integer (a fractional literal, an inexact division) falls back
  to it (every number an analysed claim evaluates is integral);
* objects are ordered association lists of own enumerable properties;
  reference identity is approximated by structural equality; prototype
  inheritance is not modelled (absent keys read as `undefined`);
* the one function-like value the sandbox claims need — a function whose
  own `constructor` property is the function itself, such as `Function` —
  is the dedicated constructor `JSVal.funcSelf`; general closures are not
  values of the model, so filter evaluation and the call of an unguarded
  function are mapped to distinguished `unmodelled` errors (no analysed
  claim evaluates them);
* mutation is explicit state passing: every evaluation returns the value,
  the updated scope and the list of write effects (hook invocations and
  direct property writes) it performed, in order.
-/

namespace WebRx

/-- JavaScript runtime values, as used by the compiled-expression evaluator. -/
inductive JSVal : Type where
  | undef
  | null
  | nan
  | bool (b : Bool)
  | num (n : Int)
  | str (s : String)
  | arr (elems : List JSVal)
  | obj (fields : List (String × JSVal))
  | funcSelf
deriving Inhabited

mutual

/-- JavaScript strict equality `===`.  `NaN` is unequal to everything
including itself; objects and arrays are compared structurally, which
approximates reference identity (the analysed claims only compare
primitive values). -/
def jsStrictEq : JSVal → JSVal → Bool
  | .nan, _ => false
  | _, .nan => false
  | .undef, .undef => true
  | .null, .null => true
  | .bool a, .bool b => a == b
  | .num a, .num b => a == b
  | .str a, .str b => a == b
  | .arr a, .arr b => jsStrictEqList a b
  | .obj a, .obj b => jsStrictEqFields a b
  | .funcSelf, .funcSelf => true
  | _, _ => false

def jsStrictEqList : List JSVal → List JSVal → Bool
  | [], [] => true
  | x :: xs, y :: ys => jsStrictEq x y && jsStrictEqList xs ys
  | _, _ => false

def jsStrictEqFields : List (String × JSVal) → List (String × JSVal) → Bool
  | [], [] => true
  | (k, v) :: xs, (k2, v2) :: ys => k == k2 && jsStrictEq v v2 && jsStrictEqFields xs ys
  | _, _ => false

end

/-- JavaScript truthiness. -/
def jsTruthy : JSVal → Bool
  | .undef => false
  | .null => false
  | .nan => false
  | .bool b => b
  | .num n => n != 0
  | .str s => s != ""
  | .arr _ => true
  | .obj _ => true
  | .funcSelf => true

/-- The `value == null` test of the getters: matches `null` and `undefined`. -/
def isNullish : JSVal → Bool
  | .undef => true
  | .null => true
  | _ => false

/-- The compiler helper `isDefined`: `typeof value !== "undefined"`. -/
def isDefined : JSVal → Bool
  | .undef => false
  | _ => true

/-- Own-property lookup in an association-list object; absent keys give
`undefined`. -/
def lookupField (fields : List (String × JSVal)) (k : String) : JSVal :=
  match fields.find? (fun p => p.1 == k) with
  | some p => p.2
  | none => (.undef)

/-- Property read `v[k]`.  `funcSelf.constructor` is `funcSelf` itself —
that is the defining feature the dynamic sandbox test looks for. -/
def jsGet : JSVal → String → JSVal
  | .obj fields, k => lookupField fields k
  | .funcSelf, k => if k == "constructor" then .funcSelf else .undef
  | .arr xs, k => if k == "length" then .num (Int.ofNat xs.length) else .undef
  | _, _ => (.undef)

/-- Replace the first binding of `k` (preserving property order) or append. -/
def setField : List (String × JSVal) → String → JSVal → List (String × JSVal)
  | [], k, v => [(k, v)]
  | (k0, v0) :: rest, k, v =>
    if k0 == k then (k0, v) :: rest else (k0, v0) :: setField rest k v

/-- Property write `o[k] = v`; writes to primitives are dropped, as in
non-strict JavaScript. -/
def jsSet (o : JSVal) (k : String) (v : JSVal) : JSVal :=
  match o with
  | .obj fields => .obj (setField fields k v)
  | other => other

/-- JavaScript `path.split(".")`, structurally recursive. -/
def splitOnDotChars : List Char → String → List String
  | [], acc => [acc]
  | c :: rest, acc =>
    if c == '.' then acc :: splitOnDotChars rest ""
    else splitOnDotChars rest (acc.push c)

def jsSplitDot (s : String) : List String := splitOnDotChars s.toList ""

/-- The `typeof` operator. -/
def jsTypeof : JSVal → String
  | .undef => "undefined"
  | .null => "object"
  | .nan => "number"
  | .bool _ => "boolean"
  | .num _ => "number"
  | .str _ => "string"
  | .arr _ => "object"
  | .obj _ => "object"
  | .funcSelf => "function"

/-- Decimal rendering of an integer number value. -/
def jsNumToDisplay (q : Int) : String := toString q

mutual

/-- String conversion, as used by `+` concatenation and array joining. -/
def jsDisplay : JSVal → String
  | .undef => "undefined"
  | .null => "null"
  | .nan => "NaN"
  | .bool b => cond b "true" "false"
  | .num q => jsNumToDisplay q
  | .str s => s
  | .arr xs => jsDisplayArr xs
  | .obj _ => "[object Object]"
  | .funcSelf => "function"

/-- Array `toString`: comma-joined elements, `null`/`undefined` as empty. -/
def jsDisplayArr : List JSVal → String
  | [] => ""
  | [x] =>
    match x with
    | .undef => ""
    | .null => ""
    | v => jsDisplay v
  | x :: rest =>
    (match x with
      | .undef => ""
      | .null => ""
      | v => jsDisplay v) ++ "," ++ jsDisplayArr rest

end

/-- ToPrimitive: objects, arrays and functions convert through their string
form; every other value is already primitive. -/
def jsToPrimitive : JSVal → JSVal
  | .arr xs => .str (jsDisplayArr xs)
  | .obj _ => .str "[object Object]"
  | .funcSelf => .str "function"
  | v => v

def pow10 : Nat → Int
  | 0 => 1
  | n + 1 => 10 * pow10 n

/-- Numeric parse of a string: optional sign, digits, optional fraction,
optional exponent (the subset `Number(...)` needs for lexer output and
string coercion).  A malformed shape is `NaN` (`none`), and so is a value
that is not an integer — the `Int` number model has nowhere else to put
it (no analysed claim evaluates a non-integral number). -/
def parseNumericChars (cs : List Char) : Option Int :=
  let cs := cs.dropWhile (fun c => c == ' ' || c == '\t' || c == '\n' || c == '\r')
  let cs := (cs.reverse.dropWhile (fun c => c == ' ' || c == '\t' || c == '\n' || c == '\r')).reverse
  if cs.isEmpty then some 0 else
  let (sign, cs) : Int × List Char :=
    match cs with
    | '-' :: rest => (-1, rest)
    | '+' :: rest => (1, rest)
    | _ => (1, cs)
  let intPart := cs.takeWhile Char.isDigit
  let cs := cs.dropWhile Char.isDigit
  let (fracPart, cs) : List Char × List Char :=
    match cs with
    | '.' :: rest => (rest.takeWhile Char.isDigit, rest.dropWhile Char.isDigit)
    | _ => ([], cs)
  if intPart.isEmpty && fracPart.isEmpty then none else
  let (expNeg, expDigits, cs) : Bool × List Char × List Char :=
    match cs with
    | 'e' :: '-' :: rest => (true, rest.takeWhile Char.isDigit, rest.dropWhile Char.isDigit)
    | 'e' :: '+' :: rest => (false, rest.takeWhile Char.isDigit, rest.dropWhile Char.isDigit)
    | 'e' :: rest => (false, rest.takeWhile Char.isDigit, rest.dropWhile Char.isDigit)
    | 'E' :: '-' :: rest => (true, rest.takeWhile Char.isDigit, rest.dropWhile Char.isDigit)
    | 'E' :: '+' :: rest => (false, rest.takeWhile Char.isDigit, rest.dropWhile Char.isDigit)
    | 'E' :: rest => (false, rest.takeWhile Char.isDigit, rest.dropWhile Char.isDigit)
    | _ => (false, ['0'], cs)
  if !cs.isEmpty then none else
  if expDigits.isEmpty then none else
  let digitsVal (ds : List Char) : Nat := ds.foldl (fun a c => a * 10 + (c.toNat - 48)) 0
  -- value = sign * (intPart.fracPart) * 10^(±exp), scaled to an integer
  let scaled : Int := (digitsVal (intPart ++ fracPart) : Nat)
  let exp : Nat := digitsVal expDigits
  let downNat : Nat := fracPart.length + (if expNeg then exp else 0)
  let upNat : Nat := if expNeg then 0 else exp
  let upScaled : Int := scaled * pow10 upNat
  let down : Int := pow10 downNat
  if upScaled % down = 0 then some (sign * (upScaled / down)) else none

def parseNumeric (s : String) : Option Int := parseNumericChars s.toList

/-- ToNumber; `none` stands for `NaN`. -/
def jsToNumber : JSVal → Option Int
  | .undef => none
  | .null => some 0
  | .nan => none
  | .bool b => some (cond b 1 0)
  | .num q => some q
  | .str s => parseNumeric s
  | .arr xs => parseNumeric (jsDisplayArr xs)
  | .obj _ => none
  | .funcSelf => none

/-- The `+` value computation once both operands are defined: string
concatenation when either primitive is a string, else numeric addition. -/
def jsAdd (a b : JSVal) : JSVal :=
  match jsToPrimitive a, jsToPrimitive b with
  | .str sa, pb => .str (sa ++ jsDisplay pb)
  | pa, .str sb => .str (jsDisplay pa ++ sb)
  | pa, pb =>
    match jsToNumber pa, jsToNumber pb with
    | some x, some y => .num (x + y)
    | _, _ => .nan

def jsSub (a b : JSVal) : JSVal :=
  match jsToNumber a, jsToNumber b with
  | some x, some y => .num (x - y)
  | _, _ => .nan

def jsMul (a b : JSVal) : JSVal :=
  match jsToNumber a, jsToNumber b with
  | some x, some y => .num (x * y)
  | _, _ => .nan

/-- Division.  Exact integer quotients are represented; a division by zero
(an infinity in JavaScript) or an inexact quotient (a non-integral number)
falls back to `NaN`, the documented limit of the `Int` number model. -/
def jsDiv (a b : JSVal) : JSVal :=
  match jsToNumber a, jsToNumber b with
  | some x, some y => if y = 0 || x % y != 0 then .nan else .num (x / y)
  | _, _ => .nan

/-- Remainder with the sign of the dividend, JavaScript `%`. -/
def jsMod (a b : JSVal) : JSVal :=
  match jsToNumber a, jsToNumber b with
  | some x, some y => if y = 0 then .nan else .num (Int.tmod x y)
  | _, _ => .nan

/-- ToInt32, for the bitwise operators. -/
def jsToInt32 (v : JSVal) : Int :=
  match jsToNumber v with
  | none => 0
  | some t =>
    let m : Int := t % (2 ^ 32 : Int)
    if m ≥ (2 ^ 31 : Int) then m - (2 ^ 32 : Int) else m

def jsBitXor (a b : JSVal) : JSVal :=
  let x := (jsToInt32 a % (2 ^ 32 : Int)).toNat
  let y := (jsToInt32 b % (2 ^ 32 : Int)).toNat
  let r : Nat := Nat.xor x y
  .num ((if r ≥ 2 ^ 31 then (r : Int) - 2 ^ 32 else (r : Int)) : Int)

def jsBitAnd (a b : JSVal) : JSVal :=
  let x := (jsToInt32 a % (2 ^ 32 : Int)).toNat
  let y := (jsToInt32 b % (2 ^ 32 : Int)).toNat
  let r : Nat := Nat.land x y
  .num ((if r ≥ 2 ^ 31 then (r : Int) - 2 ^ 32 else (r : Int)) : Int)

/-- Lexicographic comparison of character lists (string `<`). -/
def charListLt : List Char → List Char → Bool
  | [], [] => false
  | [], _ :: _ => true
  | _ :: _, [] => false
  | a :: as, b :: bs => if a < b then true else if b < a then false else charListLt as bs

/-- Relational `<`: lexicographic when both primitives are strings, else
numeric (`NaN` comparisons are false). -/
def jsLess (a b : JSVal) : Bool :=
  match jsToPrimitive a, jsToPrimitive b with
  | .str x, .str y => charListLt x.toList y.toList
  | pa, pb =>
    match jsToNumber pa, jsToNumber pb with
    | some x, some y => decide (x < y)
    | _, _ => false

def jsLessEq (a b : JSVal) : Bool :=
  match jsToPrimitive a, jsToPrimitive b with
  | .str x, .str y => !charListLt y.toList x.toList
  | pa, pb =>
    match jsToNumber pa, jsToNumber pb with
    | some x, some y => decide (x ≤ y)
    | _, _ => false

/-- Compile- and run-time failures.  `$parseMinErr(module, message, ...)`
throws a `SyntaxError` whose text is the substituted message; the model
keeps the module tag (`kind`) alongside the message so that the distinct
error kinds of the taxonomy stay observable.  `TypeError` marks both the
explicit `TypeError` of `compileExpression` and places where the
JavaScript runtime itself would throw one. -/
structure PErr where
  kind : String
  msg : String
deriving DecidableEq

/-- Runtime hooks, the capability bundle carried by `locals` under the
reserved key `"___runtimeHooks"`.  Read hooks are arbitrary pure functions;
the write hooks of the analysed claims are recording hooks, so presence is
a flag and their invocations are returned in the effect list. -/
structure RuntimeHooks where
  readFieldHook : Option (JSVal → String → JSVal)
  writeFieldHook : Bool
  readIndexHook : Option (JSVal → JSVal → JSVal)
  writeIndexHook : Bool

/-- The `locals` mapping.  The reserved hook entry `locals["___runtimeHooks"]`
is modelled as the separate `hooks` field; `vars` are the ordinary own
properties.  A `locals` argument is always an object here (the analysed
claims never pass `undefined`). -/
structure Locals where
  vars : List (String × JSVal)
  hooks : Option RuntimeHooks

/-- The source `getRuntimeHooks(locals)`: reads the reserved hook entry. -/
def getRuntimeHooks (locals : Locals) : Option RuntimeHooks := locals.hooks

/-- The `locals.hasOwnProperty(key)` test of the getters (the reserved hook
key is carried separately and is not a path segment in any analysed claim). -/
def localsHasOwn (locals : Locals) (k : String) : Bool :=
  locals.vars.any (fun p => p.1 == k)

/-- The `locals` object itself, for the branch that resolves the first path
segment against `locals`. -/
def localsVal (locals : Locals) : JSVal := .obj locals.vars

/-- A `locals` with no variables and no hooks (`{}`). -/
def emptyLocals : Locals := ⟨[], none⟩

/-- Write effects performed during an evaluation, in order: hook
invocations (with the target, key and value passed to the hook) and direct
property writes. -/
inductive WriteEff where
  | fieldHookCall (target : JSVal) (key : String) (value : JSVal)
  | indexHookCall (target : JSVal) (key : JSVal) (value : JSVal)
  | directWrite (target : JSVal) (key : String) (value : JSVal)
  | directIndexWrite (target : JSVal) (key : JSVal) (value : JSVal)

/-- Static sandbox check: the reserved member name `"constructor"` is
rejected wherever it appears as a path segment. -/
def ensureSafeMemberName (name : String) (fullExpression : String) :
    Except PErr String :=
  if name = "constructor" then
    .error ⟨"isecfld",
      "Referencing \"constructor\" field in WebRx expressions is disallowed! Expression: "
        ++ fullExpression⟩
  else .ok name

/-- Static sandbox check for a possibly-absent key (the unused trailing
parameters of `cspSafeGetterFn` are `undefined`, which passes the check). -/
def ensureSafeMemberNameOpt (name : Option String) (fullExpression : String) :
    Except PErr Unit :=
  match name with
  | some n => (ensureSafeMemberName n fullExpression).map (fun _ => ())
  | none => .ok ()

/-- Dynamic sandbox check: rejects constructor-self-referential functions,
window-like objects and DOM-element-like objects (duck-typed), in that
order, and passes every falsy value through. -/
def ensureSafeObject (o : JSVal) (fullExpression : String) : Except PErr JSVal :=
  if jsTruthy o then
    if jsStrictEq (jsGet o "constructor") o then
      .error ⟨"isecfn",
        "Referencing Function in WebRx expressions is disallowed! Expression: "
          ++ fullExpression⟩
    else if jsTruthy (jsGet o "document") && jsTruthy (jsGet o "location")
        && jsTruthy (jsGet o "alert") && jsTruthy (jsGet o "setInterval") then
      .error ⟨"isecwindow",
        "Referencing the Window in WebRx expressions is disallowed! Expression: "
          ++ fullExpression⟩
    else if jsTruthy (jsGet o "children") && (jsTruthy (jsGet o "nodeName")
        || (jsTruthy (jsGet o "prop") && jsTruthy (jsGet o "attr")
            && jsTruthy (jsGet o "find"))) then
      .error ⟨"isecdom",
        "Referencing DOM nodes in WebRx expressions is disallowed! Expression: "
          ++ fullExpression⟩
    else .ok o
  else .ok o

/-- Result of one evaluation step: value, updated scope, write effects. -/
abbrev EvalTriple := JSVal × JSVal × List WriteEff

abbrev EvalRes := Except PErr EvalTriple

/-- An evaluation closure `(scope, locals) -> value` with explicit state. -/
abbrev EvalFn := JSVal → Locals → EvalRes

/-- Sequencing helper threading the updated scope and effect list. -/
def evalBind (r : EvalRes) (k : JSVal → JSVal → List WriteEff → EvalRes) : EvalRes :=
  match r with
  | .error e => .error e
  | .ok (v, s, es) => k v s es

/-- A closure returning a fixed value (number and string literal tokens,
`null`/`true`/`false`, the `ZERO` helper). -/
def constEvalFn (v : JSVal) : EvalFn := fun scope _ => .ok (v, scope, [])

/-- The `OPERATORS['+']` closure: both operands are evaluated, then an
undefined operand makes the result the other operand unchanged. -/
def opAdd (a b : EvalFn) : EvalFn := fun self locals =>
  evalBind (a self locals) fun va s1 e1 =>
  evalBind (b s1 locals) fun vb s2 e2 =>
  if isDefined va then
    if isDefined vb then .ok (jsAdd va vb, s2, e1 ++ e2)
    else .ok (va, s2, e1 ++ e2)
  else
    if isDefined vb then .ok (vb, s2, e1 ++ e2)
    else .ok (.undef, s2, e1 ++ e2)

/-- The `OPERATORS['-']` closure: an undefined operand is replaced by 0. -/
def opSub (a b : EvalFn) : EvalFn := fun self locals =>
  evalBind (a self locals) fun va s1 e1 =>
  evalBind (b s1 locals) fun vb s2 e2 =>
  .ok (jsSub (if isDefined va then va else .num 0)
             (if isDefined vb then vb else .num 0), s2, e1 ++ e2)

/-- Strict binary operators that just combine the two evaluated values. -/
def binValOp (f : JSVal → JSVal → JSVal) (a b : EvalFn) : EvalFn := fun self locals =>
  evalBind (a self locals) fun va s1 e1 =>
  evalBind (b s1 locals) fun vb s2 e2 =>
  .ok (f va vb, s2, e1 ++ e2)

def strictEqVal (x y : JSVal) : JSVal := .bool (jsStrictEq x y)

def strictNeVal (x y : JSVal) : JSVal := .bool (!jsStrictEq x y)

/-- `&&`: returns the left value when falsy, else the right value. -/
def opAnd (a b : EvalFn) : EvalFn := fun self locals =>
  evalBind (a self locals) fun va s1 e1 =>
  if jsTruthy va then
    evalBind (b s1 locals) fun vb s2 e2 => .ok (vb, s2, e1 ++ e2)
  else .ok (va, s1, e1)

/-- `||`: returns the left value when truthy, else the right value. -/
def opOr (a b : EvalFn) : EvalFn := fun self locals =>
  evalBind (a self locals) fun va s1 e1 =>
  if jsTruthy va then .ok (va, s1, e1)
  else evalBind (b s1 locals) fun vb s2 e2 => .ok (vb, s2, e1 ++ e2)

/-- The filter-pipe operator `|` applies the closure produced by the filter
production; closures are not values of the model, so its evaluation is a
distinguished error (no analysed claim evaluates a filter chain). -/
def opPipe (_ _ : EvalFn) : EvalFn := fun _ _ =>
  .error ⟨"unmodelledFilter", "filter closures are outside the value model"⟩

/-- Unary `!`. -/
def opNot (a : EvalFn) : EvalFn := fun self locals =>
  evalBind (a self locals) fun va s1 e1 => .ok (.bool (!jsTruthy va), s1, e1)

/-- An `OPERATORS` table entry, classified by how the parser uses it. -/
inductive OpSem where
  | constOp (v : JSVal)
  | noopOp
  | binOp (f : EvalFn → EvalFn → EvalFn)
  | unOp (f : EvalFn → EvalFn)

/-- The `OPERATORS` table. -/
def OPERATORS : String → Option OpSem
  | "null" => some (.constOp .null)
  | "true" => some (.constOp (.bool true))
  | "false" => some (.constOp (.bool false))
  | "undefined" => some .noopOp
  | "+" => some (.binOp opAdd)
  | "-" => some (.binOp opSub)
  | "*" => some (.binOp (binValOp jsMul))
  | "/" => some (.binOp (binValOp jsDiv))
  | "%" => some (.binOp (binValOp jsMod))
  | "^" => some (.binOp (binValOp jsBitXor))
  | "=" => some .noopOp
  | "===" => some (.binOp (binValOp strictEqVal))
  | "!==" => some (.binOp (binValOp strictNeVal))
  | "==" => some (.binOp (binValOp strictEqVal))
  | "!=" => some (.binOp (binValOp strictNeVal))
  | "<" => some (.binOp (binValOp (fun x y => .bool (jsLess x y))))
  | ">" => some (.binOp (binValOp (fun x y => .bool (jsLess y x))))
  | "<=" => some (.binOp (binValOp (fun x y => .bool (jsLessEq x y))))
  | ">=" => some (.binOp (binValOp (fun x y => .bool (jsLessEq y x))))
  | "&&" => some (.binOp opAnd)
  | "||" => some (.binOp opOr)
  | "&" => some (.binOp (binValOp jsBitAnd))
  | "|" => some (.binOp opPipe)
  | "!" => some (.unOp opNot)
  | _ => none

/-- A compiled path getter `(scope, locals) -> value`.  The 1-, 2- and
3-to-5-segment getters validate their segment names at construction and
never fail at evaluation; the chunked getter for 6 or more segments
validates at evaluation time and therefore can. -/
abbrev GetterFn := JSVal → Locals → Except PErr JSVal

/-- Falsiness of the trailing key parameters of `cspSafeGetterFn`
(`undefined` or the empty string). -/
def falsyKey : Option String → Bool
  | none => true
  | some s => s == ""

/-- Field read through the optional read hook, else a direct property read. -/
def hookReadField (hooks : Option RuntimeHooks) (o : JSVal) (k : String) : JSVal :=
  match hooks with
  | some h =>
    match h.readFieldHook with
    | some rf => rf o k
    | none => jsGet o k
  | none => jsGet o k

def hooksReadFieldPresent (hooks : Option RuntimeHooks) : Bool :=
  match hooks with
  | some h => h.readFieldHook.isSome
  | none => false

def hooksWriteFieldPresent (hooks : Option RuntimeHooks) : Bool :=
  match hooks with
  | some h => h.writeFieldHook
  | none => false

/-- The closure body of `cspSafeGetterFn` (the "Black Hole" up-to-5-key
getter): the start value is `locals` when it owns `key0`, else `scope`;
each step returns early on a falsy next key, returns `undefined` on a
nullish intermediate, and reads through the read hook when one is present. -/
def cspSafeGetterEval (key0 : String) (key1 key2 key3 key4 : Option String)
    (scope : JSVal) (locals : Locals) : JSVal :=
  let pathVal0 := if localsHasOwn locals key0 then localsVal locals else scope
  match getRuntimeHooks locals with
  | some h =>
    match h.readFieldHook with
    | some rf =>
      if isNullish pathVal0 then pathVal0 else
      let p0 := rf pathVal0 key0
      if falsyKey key1 then p0 else
      if isNullish p0 then .undef else
      let p1 := rf p0 (key1.getD "")
      if falsyKey key2 then p1 else
      if isNullish p1 then .undef else
      let p2 := rf p1 (key2.getD "")
      if falsyKey key3 then p2 else
      if isNullish p2 then .undef else
      let p3 := rf p2 (key3.getD "")
      if falsyKey key4 then p3 else
      if isNullish p3 then .undef else
      rf p3 (key4.getD "")
    | none => cspSafeGetterEvalPlain key0 key1 key2 key3 key4 pathVal0
  | none => cspSafeGetterEvalPlain key0 key1 key2 key3 key4 pathVal0
where
  /-- The hook-free second half of the closure: plain property reads. -/
  cspSafeGetterEvalPlain (key0 : String) (key1 key2 key3 key4 : Option String)
      (pathVal0 : JSVal) : JSVal :=
    if isNullish pathVal0 then pathVal0 else
    let p0 := jsGet pathVal0 key0
    if falsyKey key1 then p0 else
    if isNullish p0 then .undef else
    let p1 := jsGet p0 (key1.getD "")
    if falsyKey key2 then p1 else
    if isNullish p1 then .undef else
    let p2 := jsGet p1 (key2.getD "")
    if falsyKey key3 then p2 else
    if isNullish p2 then .undef else
    let p3 := jsGet p2 (key3.getD "")
    if falsyKey key4 then p3 else
    if isNullish p3 then .undef else
    jsGet p3 (key4.getD "")

/-- The source `cspSafeGetterFn(key0..key4, fullExp)`: validates the five
segment names, then returns the evaluation closure. -/
def cspSafeGetterFn (key0 : String) (key1 key2 key3 key4 : Option String)
    (fullExp : String) : Except PErr GetterFn := do
  let _ ← ensureSafeMemberName key0 fullExp
  let _ ← ensureSafeMemberNameOpt key1 fullExp
  let _ ← ensureSafeMemberNameOpt key2 fullExp
  let _ ← ensureSafeMemberNameOpt key3 fullExp
  let _ ← ensureSafeMemberNameOpt key4 fullExp
  .ok (fun scope locals => .ok (cspSafeGetterEval key0 key1 key2 key3 key4 scope locals))

/-- The unrolled single-segment getter. -/
def simpleGetterFn1 (key0 : String) (fullExp : String) : Except PErr GetterFn := do
  let _ ← ensureSafeMemberName key0 fullExp
  .ok (fun scope locals =>
    let scope1 := if localsHasOwn locals key0 then localsVal locals else scope
    if isNullish scope1 then .ok .undef
    else
      match getRuntimeHooks locals with
      | some h =>
        match h.readFieldHook with
        | some rf => .ok (rf scope1 key0)
        | none => .ok (jsGet scope1 key0)
      | none => .ok (jsGet scope1 key0))

/-- The unrolled two-segment getter.  Its hook-free branch indexes the
start value without a null check, so a nullish scope makes it fail with
the `TypeError` the JavaScript runtime would throw there. -/
def simpleGetterFn2 (key0 key1 : String) (fullExp : String) : Except PErr GetterFn := do
  let _ ← ensureSafeMemberName key0 fullExp
  let _ ← ensureSafeMemberName key1 fullExp
  .ok (fun scope locals =>
    match getRuntimeHooks locals with
    | some h =>
      match h.readFieldHook with
      | some rf =>
        let scope1 := if localsHasOwn locals key0 then localsVal locals else scope
        if isNullish scope1 then .ok .undef
        else
          let s0 := rf scope1 key0
          .ok (if isNullish s0 then .undef else rf s0 key1)
      | none => simpleGetterFn2Plain key0 key1 scope locals
    | none => simpleGetterFn2Plain key0 key1 scope locals)
where
  simpleGetterFn2Plain (key0 key1 : String) (scope : JSVal) (locals : Locals) :
      Except PErr JSVal :=
    let base := if localsHasOwn locals key0 then localsVal locals else scope
    if isNullish base then
      .error ⟨"TypeError", "cannot read properties of a nullish value"⟩
    else
      let s0 := jsGet base key0
      .ok (if isNullish s0 then .undef else jsGet s0 key1)

/-- The chunk loop of the getter for 6 or more segments: evaluate
`cspSafeGetterFn` on the next five keys, make its value the new scope, and
continue with the same `locals` — the backup/restore of the own enumerable
properties of `locals` in the source is the identity on the functional
`locals` value.  Each chunk validates its keys at evaluation time, exactly
as the source constructs the chunk getter inside the evaluation closure. -/
def longLoopGo (fullExp : String) (locals : Locals) :
    Nat → JSVal → List String → Except PErr JSVal
  | 0, _, _ => .error ⟨"fuel", "chunk budget exhausted"⟩
  | fuel + 1, scope, rem =>
    match cspSafeGetterFn (rem.headD "") (rem.get? 1) (rem.get? 2) (rem.get? 3)
        (rem.get? 4) fullExp with
    | .error e => .error e
    | .ok g =>
      match g scope locals with
      | .error e => .error e
      | .ok val =>
        if 5 < rem.length then longLoopGo fullExp locals fuel val (rem.drop 5)
        else .ok val

def longLoop (fullExp : String) (locals : Locals) (scope : JSVal)
    (pathKeys : List String) : Except PErr JSVal :=
  longLoopGo fullExp locals (pathKeys.length + 1) scope pathKeys

/-- The cache-free construction half of `getterFn`: dispatch on the number
of path segments (the `options` parameter of the source only feeds the
commented-out code-generation branch and is dropped). -/
def getterFnBuild (path : String) (fullExp : String) : Except PErr GetterFn :=
  let pathKeys := jsSplitDot path
  match pathKeys with
  | [k0] => simpleGetterFn1 k0 fullExp
  | [k0, k1] => simpleGetterFn2 k0 k1 fullExp
  | _ =>
    if pathKeys.length < 6 then
      cspSafeGetterFn (pathKeys.headD "") (pathKeys.get? 1) (pathKeys.get? 2)
        (pathKeys.get? 3) (pathKeys.get? 4) fullExp
    else
      .ok (fun scope locals => longLoop fullExp locals scope pathKeys)

/-- The process-wide getter cache, as explicit state. -/
abbrev GetterFnCache := List (String × GetterFn)

def getterCacheHasKey (cache : GetterFnCache) (path : String) : Bool :=
  cache.any (fun p => p.1 == path)

/-- The source `getterFn(path, options, fullExp)` with its process-wide
cache made an explicit argument: a cached getter is returned as is;
otherwise the getter is built and stored — except under the key
`"hasOwnProperty"`, which is never stored so that the cache's own
`hasOwnProperty`-based lookup stays sound. -/
def getterFn (cache : GetterFnCache) (path : String) (fullExp : String) :
    Except PErr (GetterFn × GetterFnCache) :=
  match cache.find? (fun p => p.1 == path) with
  | some hit => .ok (hit.2, cache)
  | none =>
    match getterFnBuild path fullExp with
    | .error e => .error e
    | .ok fn =>
      if path == "hasOwnProperty" then .ok (fn, cache)
      else .ok (fn, (path, fn) :: cache)

/-- The recursive body of `setter`: walk all path segments but the last,
materializing an empty object for a falsy intermediate, then write the
final segment; every write defers to `writeFieldHook` when present.  The
returned object is `some` of the updated value when direct writes changed
this subtree (when the intermediate was produced by a read hook the source
mutates whatever object the hook returned — aliasing the tree model cannot
express — so the root is reported unchanged and the writes stay visible in
the effect list). -/
def setterWalk (hooks : Option RuntimeHooks) (fullExp : String) (setValue : JSVal)
    (o : JSVal) : List String → Except PErr (Option JSVal × List WriteEff)
  | [] => .ok (none, [])
  | [k] =>
    match ensureSafeMemberName k fullExp with
    | .error e => .error e
    | .ok key =>
      if hooksWriteFieldPresent hooks then
        .ok (none, [.fieldHookCall o key setValue])
      else
        .ok (some (jsSet o key setValue), [.directWrite o key setValue])
  | k :: rest =>
    match ensureSafeMemberName k fullExp with
    | .error e => .error e
    | .ok key =>
      let propertyObj := hookReadField hooks o key
      if jsTruthy propertyObj then
        match setterWalk hooks fullExp setValue propertyObj rest with
        | .error e => .error e
        | .ok (upd, effs) =>
          if hooksReadFieldPresent hooks then .ok (none, effs)
          else
            match upd with
            | some po => .ok (some (jsSet o key po), effs)
            | none => .ok (none, effs)
      else
        let fresh : JSVal := .obj []
        if hooksWriteFieldPresent hooks then
          match setterWalk hooks fullExp setValue fresh rest with
          | .error e => .error e
          | .ok (_, effs) => .ok (none, .fieldHookCall o key fresh :: effs)
        else
          match setterWalk hooks fullExp setValue fresh rest with
          | .error e => .error e
          | .ok (upd, effs) =>
            .ok (some (jsSet o key (upd.getD fresh)), .directWrite o key fresh :: effs)

/-- The source `setter(obj, path, setValue, fullExp, options, locals)`
(the unused `options` parameter is dropped): returns `setValue`, the
updated root object and the write effects in order. -/
def setter (o : JSVal) (path : String) (setValue : JSVal) (fullExp : String)
    (locals : Locals) : Except PErr (JSVal × JSVal × List WriteEff) :=
  let hooks := getRuntimeHooks locals
  match setterWalk hooks fullExp setValue o (jsSplitDot path) with
  | .error e => .error e
  | .ok (upd, effs) => .ok (setValue, upd.getD o, effs)

/-- A compiled expression: the evaluation closure, the optional
three-argument form produced by `fieldAccess` (whose closure accepts the
`self` receiver passed by `functionCall`), the optional `assign`
capability, and the `constant`/`literal` flags. -/
structure CExpr where
  run : EvalFn
  runSelf : Option (JSVal → Locals → JSVal → EvalRes)
  assign : Option (JSVal → JSVal → Locals → EvalRes)
  constant : Bool
  literal : Bool

/-- A compiled expression that is just an evaluation closure. -/
def CExpr.simple (f : EvalFn) : CExpr := ⟨f, none, none, false, false⟩

def constCExpr (v : JSVal) : CExpr := CExpr.simple (constEvalFn v)

/-- The `fn` attached to a token: either a compiled-expression closure
(literals and identifiers) or a reference into the `OPERATORS` table. -/
inductive TokFn where
  | exprFn (e : CExpr)
  | opFn (name : String)

/-- A lexer token. -/
structure Token where
  index : Nat
  text : String
  fn : Option TokFn
  json : Bool
  string : Option String

/-- Lexer character classes (`Lexer.isNumber`, `isWhitespace`, `isIdent`,
`isExpOperator`; the last takes the `peek` result, which may be absent). -/
def isNumberCh (c : Char) : Bool := '0' ≤ c && c ≤ '9'

def isWhitespaceCh (c : Char) : Bool :=
  c == ' ' || c == '\r' || c == '\t' || c == '\n' || c == '\x0b' || c == Char.ofNat 160

def isIdentCh (c : Char) : Bool :=
  ('a' ≤ c && c ≤ 'z') || ('A' ≤ c && c ≤ 'Z') || c == '_' || c == '$' || c == '@'

def isExpOperatorCh : Option Char → Bool
  | some c => c == '-' || c == '+' || isNumberCh c
  | none => false

/-- Lexer errors (`Lexer.throwError`); column information is folded into
the message. -/
def lexErr (error : String) : PErr := ⟨"lexerr", "Lexer Error: " ++ error⟩

/-- The digit/exponent accumulation loop of `Lexer.readNumber`; characters
are lowercased as they are read. -/
def readNumberGo (cs : List Char) : Nat → Nat → List Char →
    Except PErr (List Char × Nat)
  | 0, i, n => .ok (n, i)
  | fuel + 1, i, n =>
    match cs.get? i with
    | none => .ok (n, i)
    | some ch0 =>
      let ch := ch0.toLower
      if ch == '.' || isNumberCh ch then readNumberGo cs fuel (i + 1) (n ++ [ch])
      else
        let peekCh := cs.get? (i + 1)
        if ch == 'e' && isExpOperatorCh peekCh then
          readNumberGo cs fuel (i + 1) (n ++ [ch])
        else if isExpOperatorCh (some ch) && peekCh.isSome
            && isNumberCh (peekCh.getD ' ') && n.getLast? == some 'e' then
          readNumberGo cs fuel (i + 1) (n ++ [ch])
        else if isExpOperatorCh (some ch)
            && (peekCh.isNone || !isNumberCh (peekCh.getD ' '))
            && n.getLast? == some 'e' then
          .error (lexErr "Invalid exponent")
        else .ok (n, i)

/-- The source `Lexer.readNumber`: the accumulated text is converted with
JavaScript `Number` semantics (`1 * n`), which gives `NaN` for malformed
shapes such as `1.2.3`; the token is a JSON literal with a constant `fn`. -/
def readNumber (cs : List Char) (start : Nat) : Except PErr (Token × Nat) := do
  let (n, i) ← readNumberGo cs (cs.length + 1) start []
  let v : JSVal :=
    match parseNumericChars n with
    | some q => .num q
    | none => .nan
  .ok (⟨start, jsDisplay v, some (.exprFn (constCExpr v)), true, none⟩, i)

def isHexCh (c : Char) : Bool :=
  c.isDigit || ('a' ≤ c.toLower && c.toLower ≤ 'f')

def hexValChars (cs : List Char) : Nat :=
  cs.foldl (fun a c =>
    a * 16 + (if c.isDigit then c.toNat - 48 else c.toLower.toNat - 87)) 0

/-- The named escapes of the `ESCAPE` table; any other escaped character
stands for itself. -/
def escapeRep (c : Char) : Char :=
  if c == 'n' then '\n'
  else if c == 'f' then '\x0c'
  else if c == 'r' then '\r'
  else if c == 't' then '\t'
  else if c == 'v' then '\x0b'
  else c

/-- The scan loop of `Lexer.readString`.  The raw text accumulates every
character the loop visits (so the four digits of a `\uXXXX` escape are
skipped over, exactly as in the source); the token carries the raw text,
the cooked string and a constant `fn`. -/
def readStringGo (cs : List Char) (quote : Char) (start : Nat) :
    Nat → Nat → String → String → Bool → Except PErr (Token × Nat)
  | 0, _, _, _, _ => .error ⟨"fuel", "lexer fuel exhausted"⟩
  | fuel + 1, i, raw, value, esc =>
    match cs.get? i with
    | none => .error (lexErr "Unterminated quote")
    | some ch =>
      let raw := raw.push ch
      if esc then
        if ch == 'u' then
          let hex := (cs.drop (i + 1)).take 4
          if hex.length == 4 && hex.all isHexCh then
            readStringGo cs quote start fuel (i + 5) raw
              (value.push (Char.ofNat (hexValChars hex))) false
          else .error (lexErr "Invalid unicode escape")
        else
          readStringGo cs quote start fuel (i + 1) raw (value.push (escapeRep ch)) false
      else if ch == '\\' then
        readStringGo cs quote start fuel (i + 1) raw value true
      else if ch == quote then
        .ok (⟨start, raw, some (.exprFn (constCExpr (.str value))), true, some value⟩,
          i + 1)
      else readStringGo cs quote start fuel (i + 1) raw (value.push ch) false

def readString (cs : List Char) (quote : Char) (start : Nat) :
    Except PErr (Token × Nat) :=
  readStringGo cs quote start (cs.length + 1) (start + 1) (String.mk [quote]) "" false

/-- The identifier scan of `Lexer.readIdent`: consume identifier
characters, digits and dots, remembering the absolute position of the last
dot. -/
def readIdentScan (cs : List Char) : Nat → Nat → String → Option Nat →
    String × Option Nat × Nat
  | 0, i, ident, lastDot => (ident, lastDot, i)
  | fuel + 1, i, ident, lastDot =>
    match cs.get? i with
    | some ch =>
      if ch == '.' || isIdentCh ch || isNumberCh ch then
        readIdentScan cs fuel (i + 1) (ident.push ch)
          (if ch == '.' then some i else lastDot)
      else (ident, lastDot, i)
    | none => (ident, lastDot, i)

/-- The lookahead of `Lexer.readIdent` that decides whether the dotted run
is a method invocation: skip whitespace after the run; a `(` gives back its
position. -/
def methodPeek (cs : List Char) : Nat → Nat → Option Nat
  | 0, _ => none
  | fuel + 1, peekIndex =>
    match cs.get? peekIndex with
    | some ch =>
      if ch == '(' then some peekIndex
      else if isWhitespaceCh ch then methodPeek cs fuel (peekIndex + 1)
      else none
    | none => none

/-- The source `Lexer.readIdent`: scan the dotted identifier run, split off
a trailing method name when a `(` follows, and attach either the
`OPERATORS` entry (for `null`/`true`/`false`/`undefined`, with a truthy
`json` flag) or a getter/setter closure pair built from the path.  The
process-wide getter cache only memoizes behaviorally identical closures,
so the cache-free construction is used here (the cache itself is analysed
separately through `getterFn`). -/
def readIdent (text : String) (cs : List Char) (start : Nat) :
    Except PErr (List Token × Nat) := do
  let (ident0, lastDot, i0) := readIdentScan cs (cs.length + 1) start "" none
  let (ident, methodName, index1) :
      String × Option (String × Nat) × Nat :=
    match lastDot with
    | none => (ident0, none, i0)
    | some ld =>
      match methodPeek cs (cs.length + 1) i0 with
      | some pk =>
        let idChars := ident0.toList
        (String.mk (idChars.take (ld - start)),
          some (String.mk (idChars.drop (ld - start + 1)), ld), pk)
      | none => (ident0, none, i0)
  let identTok : Token ←
    match OPERATORS ident with
    | some _ => pure (⟨start, ident, some (.opFn ident), true, none⟩ : Token)
    | none => do
      let getter ← getterFnBuild ident text
      let run : EvalFn := fun scope locals =>
        match getter scope locals with
        | .error e => .error e
        | .ok v => .ok (v, scope, [])
      let ce : CExpr :=
        ⟨run, none, some (fun self value locals => setter self ident value text locals),
          false, false⟩
      pure (⟨start, ident, some (.exprFn ce), false, none⟩ : Token)
  match methodName with
  | some (m, ld) =>
    .ok ([identTok, ⟨ld, ".", none, false, none⟩, ⟨ld + 1, m, none, false, none⟩], index1)
  | none => .ok ([identTok], index1)

/-- The `token.json` rewrite applied to the last token after `readIdent`
when the previous character was `{` or `,` inside an open `{` literal. -/
def fixLastTokenJson (toks : List Token) : List Token :=
  match toks.getLast? with
  | some t =>
    toks.dropLast ++ [⟨t.index, t.text, t.fn, !(t.text.toList.contains '.'), t.string⟩]
  | none => toks

def punctChars : List Char :=
  ['(', ')', '\x7b', '\x7d', '[', ']', '.', ',', ';', ':', '?']

/-- The main loop of `Lexer.lex` as a fuelled recursion over the cursor
state (`index`, previous character, JSON-literal stack, token list).
Whitespace skips without updating the previous character, exactly as the
`continue` in the source does. -/
def lexGo (text : String) (cs : List Char) :
    Nat → Nat → Char → List Char → List Token → Except PErr (List Token)
  | 0, _, _, _, _ => .error ⟨"fuel", "lexer fuel exhausted"⟩
  | fuel + 1, index, lastCh, jsonStack, tokens =>
    match cs.get? index with
    | none => .ok tokens
    | some ch =>
      if ch == '"' || ch == '\x27' then
        match readString cs ch index with
        | .error e => .error e
        | .ok (tok, i2) => lexGo text cs fuel i2 ch jsonStack (tokens ++ [tok])
      else if isNumberCh ch || (ch == '.' && isNumberCh ((cs.get? (index + 1)).getD ' ')
          && (cs.get? (index + 1)).isSome) then
        match readNumber cs index with
        | .error e => .error e
        | .ok (tok, i2) => lexGo text cs fuel i2 ch jsonStack (tokens ++ [tok])
      else if isIdentCh ch then
        match readIdent text cs index with
        | .error e => .error e
        | .ok (toks, i2) =>
          let tokens2 := tokens ++ toks
          let tokens3 :=
            if (lastCh == '\x7b' || lastCh == ',') && jsonStack.head? == some '\x7b' then
              fixLastTokenJson tokens2
            else tokens2
          lexGo text cs fuel i2 ch jsonStack tokens3
      else if punctChars.contains ch then
        let json := ((lastCh == ':' || lastCh == '[' || lastCh == ',')
              && (ch == '\x7b' || ch == '['))
            || (ch == '\x7d' || ch == ']' || ch == ':' || ch == ',')
        let jsonStack2 :=
          if ch == '\x7b' || ch == '[' then ch :: jsonStack
          else if ch == '\x7d' || ch == ']' then jsonStack.tail
          else jsonStack
        lexGo text cs fuel (index + 1) ch jsonStack2
          (tokens ++ [⟨index, String.mk [ch], none, json, none⟩])
      else if isWhitespaceCh ch then
        lexGo text cs fuel (index + 1) lastCh jsonStack tokens
      else
        let pk1 := cs.get? (index + 1)
        let pk2 := cs.get? (index + 2)
        let ch2 : Option String := pk1.map (fun c => String.mk [ch, c])
        let ch3 : Option String :=
          match pk1, pk2 with
          | some c1, some c2 => some (String.mk [ch, c1, c2])
          | _, _ => none
        match ch3.bind (fun s => (OPERATORS s).map (fun _ => s)) with
        | some s3 =>
          lexGo text cs fuel (index + 3) ch jsonStack
            (tokens ++ [⟨index, s3, some (.opFn s3), false, none⟩])
        | none =>
          match ch2.bind (fun s => (OPERATORS s).map (fun _ => s)) with
          | some s2 =>
            lexGo text cs fuel (index + 2) ch jsonStack
              (tokens ++ [⟨index, s2, some (.opFn s2), false, none⟩])
          | none =>
            let s1 := String.mk [ch]
            match OPERATORS s1 with
            | some _ =>
              let json := (lastCh == '[' || lastCh == ',' || lastCh == ':')
                && (ch == ' ' || ch == '+' || ch == '-')
              lexGo text cs fuel (index + 1) ch jsonStack
                (tokens ++ [⟨index, s1, some (.opFn s1), json, none⟩])
            | none => .error (lexErr "Unexpected next character ")

/-- The source `Lexer.lex(text)`: fresh cursor state per call, previous
character initialized to `:` ("can start regexp"). -/
def lex (text : String) : Except PErr (List Token) :=
  let cs := text.toList
  lexGo text cs (2 * cs.length + 2) 0 ':' [] []

/-- Compiler options (`IExpressionCompilerOptions`).  The `filters`
registry maps names to closures, which are outside the value model; filter
evaluation is a distinguished error, so only the call-disallowing flag is
carried. -/
structure IExpressionCompilerOptions where
  disallowFunctionCalls : Bool

/-- The `Parser.throwError(msg, token)` failure.  When the source reaches
`throwError` without a token (empty token stream, or the call-disallowed
branch, which passes none) it crashes reading `token.text`, so the model
produces the `TypeError` the JavaScript runtime would throw there. -/
def parserThrow (text msg : String) (token : Option Token) : PErr :=
  match token with
  | some t =>
    ⟨"syntax", "WebRx Syntax Error: Token \x27" ++ t.text ++ "\x27 " ++ msg
      ++ " at column " ++ toString (t.index + 1) ++ " of the expression ["
      ++ text ++ "]"⟩
  | none => ⟨"TypeError", "cannot read property text of undefined"⟩

/-- The source `Parser.peekToken`: first token or the `ueoe` error. -/
def peekToken (text : String) (toks : List Token) : Except PErr Token :=
  match toks with
  | [] => .error ⟨"ueoe", "Unexpected end of expression: " ++ text⟩
  | t :: _ => .ok t

/-- The source `Parser.peek(e1..e4)`: the first token when its text is one
of the expected texts (or when none are given). -/
def peekTok (toks : List Token) (es : List String) : Option Token :=
  match toks with
  | [] => none
  | t :: _ => if es.isEmpty || es.contains t.text then some t else none

/-- The source `Parser.expect(e1..e4)`: `peek` plus consuming the token. -/
def expectTok (toks : List Token) (es : List String) : Option (Token × List Token) :=
  match peekTok toks es with
  | some t => some (t, toks.tail)
  | none => none

/-- The source `Parser.consume(e1)`. -/
def pConsume (text : String) (e : String) (toks : List Token) :
    Except PErr (List Token) :=
  match expectTok toks [e] with
  | some (_, t) => .ok t
  | none => .error (parserThrow text ("is unexpected, expecting [" ++ e ++ "]") toks.head?)

/-- An `OPERATORS` token used as a primary expression.  The constant
entries behave as their closures do; a binary or unary operator closure
invoked with just `(self, locals)` dereferences an undefined operand, so
its evaluation is the runtime `TypeError`. -/
def opAsPrimary (name : String) : CExpr :=
  match OPERATORS name with
  | some (.constOp v) => CExpr.simple (constEvalFn v)
  | some .noopOp => CExpr.simple (constEvalFn .undef)
  | some (.binOp _) =>
    CExpr.simple (fun _ _ =>
      .error ⟨"TypeError", "operator closure called as a primary expression"⟩)
  | some (.unOp _) =>
    CExpr.simple (fun _ _ =>
      .error ⟨"TypeError", "operator closure called as a primary expression"⟩)
  | none =>
    CExpr.simple (fun _ _ => .error ⟨"TypeError", "missing operator"⟩)

def tokFnToCExpr : TokFn → CExpr
  | .exprFn e => e
  | .opFn name => opAsPrimary name

/-- The source `Parser.binaryFn(left, fn, right)`: the combined closure
applies the operator entry to the operand closures; `constant` holds when
both operand flags do.  The non-binary fallbacks mirror how the
JavaScript closures behave when handed the two extra arguments. -/
def binaryFn (left : CExpr) (fn : Option TokFn) (right : CExpr) : CExpr :=
  let run : EvalFn :=
    match fn with
    | some (.opFn name) =>
      match OPERATORS name with
      | some (.binOp f) => f left.run right.run
      | some (.unOp f) => f left.run
      | some (.constOp v) => constEvalFn v
      | some .noopOp => constEvalFn .undef
      | none => fun _ _ => .error ⟨"TypeError", "missing operator"⟩
    | some (.exprFn e) => e.run
    | none => fun _ _ => .error ⟨"TypeError", "missing operator"⟩
  ⟨run, none, none, left.constant && right.constant, false⟩

/-- The source `Parser.unaryFn(fn, right)`. -/
def unaryFn (fn : Option TokFn) (right : CExpr) : CExpr :=
  let run : EvalFn :=
    match fn with
    | some (.opFn name) =>
      match OPERATORS name with
      | some (.unOp f) => f right.run
      | some (.binOp f) => f right.run (fun _ _ => .error ⟨"TypeError", "operand is undefined"⟩)
      | some (.constOp v) => constEvalFn v
      | some .noopOp => constEvalFn .undef
      | none => fun _ _ => .error ⟨"TypeError", "missing operator"⟩
    | some (.exprFn e) => e.run
    | none => fun _ _ => .error ⟨"TypeError", "missing operator"⟩
  ⟨run, none, none, right.constant, false⟩

/-- The source `Parser.ternaryFn(left, middle, right)`. -/
def ternaryFn (left middle right : CExpr) : CExpr :=
  ⟨fun s l =>
      evalBind (left.run s l) fun v s1 e1 =>
      if jsTruthy v then
        evalBind (middle.run s1 l) fun v2 s2 e2 => .ok (v2, s2, e1 ++ e2)
      else
        evalBind (right.run s1 l) fun v2 s2 e2 => .ok (v2, s2, e1 ++ e2),
    none, none, left.constant && middle.constant && right.constant, false⟩

/-- The `ZERO` helper (`function ZERO() { return 0 }`); it carries no
flags, so `constant` reads as false. -/
def ZERO : CExpr := ⟨constEvalFn (.num 0), none, none, false, false⟩

/-- Statement-list evaluation: each statement runs in order on the updated
scope, the last value wins (initially `undefined`). -/
def stmtsEvalGo : List CExpr → JSVal → Locals → JSVal → List WriteEff → EvalRes
  | [], s, _, value, effs => .ok (value, s, effs)
  | e :: rest, s, l, _, effs =>
    evalBind (e.run s l) fun v s2 e2 => stmtsEvalGo rest s2 l v (effs ++ e2)

/-- The single-statement optimization of `Parser.statements`. -/
def combineStatements : List CExpr → CExpr
  | [e] => e
  | stmts => CExpr.simple (fun s l => stmtsEvalGo stmts s l .undef [])

/-- Argument evaluation of `Parser.functionCall`, left to right. -/
def evalArgsGo : List CExpr → JSVal → Locals → List JSVal → List WriteEff →
    Except PErr (List JSVal × JSVal × List WriteEff)
  | [], s, _, acc, effs => .ok (acc, s, effs)
  | a :: rest, s, l, acc, effs =>
    match a.run s l with
    | .error e => .error e
    | .ok (v, s2, e2) => evalArgsGo rest s2 l (acc ++ [v]) (effs ++ e2)

/-- Indexed read `o[i]`: numeric indexing on arrays, string-coerced keys on
objects. -/
def jsIndex (o i : JSVal) : JSVal :=
  match o, i with
  | .arr xs, .num n =>
    if 0 ≤ n then xs.getD n.toNat .undef else .undef
  | _, _ => jsGet o (jsDisplay i)

mutual

/-- The source `Parser.statements`: `;`-separated statements, last value
wins, stopping before `}`, `)`, `;`, `]` or the end of the stream. -/
def pStatements : Nat → String → IExpressionCompilerOptions → List CExpr →
    List Token → Except PErr (CExpr × List Token)
  | 0, _, _, _, _ => .error ⟨"fuel", "recursion budget exhausted"⟩
  | fuel + 1, text, opts, acc, toks => do
    let (acc2, toks2) ←
      if !toks.isEmpty
          && (peekTok toks ["\x7d", ")", ";", "]"]).isNone then do
        let (e, t2) ← pFilterChain fuel text opts toks
        pure (acc ++ [e], t2)
      else
        pure (acc, toks)
    match expectTok toks2 [";"] with
    | some (_, t3) => pStatements fuel text opts acc2 t3
    | none => .ok (combineStatements acc2, toks2)

/-- The source `Parser.filterChain`. -/
def pFilterChain : Nat → String → IExpressionCompilerOptions → List Token →
    Except PErr (CExpr × List Token)
  | 0, _, _, _ => .error ⟨"fuel", "recursion budget exhausted"⟩
  | fuel + 1, text, opts, toks => do
    let (left, t1) ← pExpression fuel text opts toks
    pFilterLoop fuel text opts left t1

def pFilterLoop : Nat → String → IExpressionCompilerOptions → CExpr →
    List Token → Except PErr (CExpr × List Token)
  | 0, _, _, _, _ => .error ⟨"fuel", "recursion budget exhausted"⟩
  | fuel + 1, text, opts, left, toks =>
    match expectTok toks ["|"] with
    | some (token, t2) => do
      let (right, t3) ← pFilter fuel text opts t2
      pFilterLoop fuel text opts (binaryFn left token.fn right) t3
    | none => .ok (left, toks)

/-- The source `Parser.filter`: consumes the filter name and its
`:`-separated argument expressions.  The production returns a closure
yielding the filter-invocation function, which is outside the value model,
so evaluating the result is a distinguished error (no analysed claim
evaluates a filter). -/
def pFilter : Nat → String → IExpressionCompilerOptions → List Token →
    Except PErr (CExpr × List Token)
  | 0, _, _, _ => .error ⟨"fuel", "recursion budget exhausted"⟩
  | fuel + 1, text, opts, toks =>
    match expectTok toks [] with
    | none => .error ⟨"TypeError", "cannot read property text of undefined"⟩
    | some (_, t1) => pFilterArgs fuel text opts t1

def pFilterArgs : Nat → String → IExpressionCompilerOptions → List Token →
    Except PErr (CExpr × List Token)
  | 0, _, _, _ => .error ⟨"fuel", "recursion budget exhausted"⟩
  | fuel + 1, text, opts, toks =>
    match expectTok toks [":"] with
    | some (_, t2) => do
      let (_, t3) ← pExpression fuel text opts t2
      pFilterArgs fuel text opts t3
    | none =>
      .ok (CExpr.simple (fun _ _ =>
        .error ⟨"unmodelledFilter", "filter closures are outside the value model"⟩), toks)

def pExpression : Nat → String → IExpressionCompilerOptions → List Token →
    Except PErr (CExpr × List Token)
  | 0, _, _, _ => .error ⟨"fuel", "recursion budget exhausted"⟩
  | fuel + 1, text, opts, toks => pAssignment fuel text opts toks

/-- The source `Parser.assignment`: requires the left side to expose the
`assign` capability; the combined closure evaluates the right side, then
delegates to `assign`. -/
def pAssignment : Nat → String → IExpressionCompilerOptions → List Token →
    Except PErr (CExpr × List Token)
  | 0, _, _, _ => .error ⟨"fuel", "recursion budget exhausted"⟩
  | fuel + 1, text, opts, toks => do
    let (left, t1) ← pTernary fuel text opts toks
    match expectTok t1 ["="] with
    | some (token, t2) =>
      match left.assign with
      | none =>
        .error (parserThrow text
          ("implies assignment but [" ++ String.mk (text.toList.take token.index)
            ++ "] can not be assigned to") (some token))
      | some asn => do
        let (right, t3) ← pTernary fuel text opts t2
        .ok (CExpr.simple (fun scope locals =>
          evalBind (right.run scope locals) fun v s1 e1 =>
          evalBind (asn s1 v locals) fun v2 s2 e2 => .ok (v2, s2, e1 ++ e2)), t3)
    | none => .ok (left, t1)

/-- The source `Parser.ternary`.  When the `:` is missing the source calls
`throwError` with the `false` returned by `expect`, which crashes reading
`token.text` — a runtime `TypeError`, not a syntax error. -/
def pTernary : Nat → String → IExpressionCompilerOptions → List Token →
    Except PErr (CExpr × List Token)
  | 0, _, _, _ => .error ⟨"fuel", "recursion budget exhausted"⟩
  | fuel + 1, text, opts, toks => do
    let (left, t1) ← pLogicalOR fuel text opts toks
    match expectTok t1 ["?"] with
    | some (_, t2) => do
      let (middle, t3) ← pTernary fuel text opts t2
      match expectTok t3 [":"] with
      | some (_, t4) => do
        let (right, t5) ← pTernary fuel text opts t4
        .ok (ternaryFn left middle right, t5)
      | none => .error ⟨"TypeError", "cannot read property text of undefined"⟩
    | none => .ok (left, t1)

def pLogicalOR : Nat → String → IExpressionCompilerOptions → List Token →
    Except PErr (CExpr × List Token)
  | 0, _, _, _ => .error ⟨"fuel", "recursion budget exhausted"⟩
  | fuel + 1, text, opts, toks => do
    let (left, t1) ← pLogicalAND fuel text opts toks
    pLogicalORLoop fuel text opts left t1

def pLogicalORLoop : Nat → String → IExpressionCompilerOptions → CExpr →
    List Token → Except PErr (CExpr × List Token)
  | 0, _, _, _, _ => .error ⟨"fuel", "recursion budget exhausted"⟩
  | fuel + 1, text, opts, left, toks =>
    match expectTok toks ["||"] with
    | some (token, t2) => do
      let (right, t3) ← pLogicalAND fuel text opts t2
      pLogicalORLoop fuel text opts (binaryFn left token.fn right) t3
    | none => .ok (left, toks)

/-- The source `Parser.logicalAND` (a single `if`, recursing to the right). -/
def pLogicalAND : Nat → String → IExpressionCompilerOptions → List Token →
    Except PErr (CExpr × List Token)
  | 0, _, _, _ => .error ⟨"fuel", "recursion budget exhausted"⟩
  | fuel + 1, text, opts, toks => do
    let (left, t1) ← pEquality fuel text opts toks
    match expectTok t1 ["&&"] with
    | some (token, t2) => do
      let (right, t3) ← pLogicalAND fuel text opts t2
      .ok (binaryFn left token.fn right, t3)
    | none => .ok (left, t1)

def pEquality : Nat → String → IExpressionCompilerOptions → List Token →
    Except PErr (CExpr × List Token)
  | 0, _, _, _ => .error ⟨"fuel", "recursion budget exhausted"⟩
  | fuel + 1, text, opts, toks => do
    let (left, t1) ← pRelational fuel text opts toks
    match expectTok t1 ["==", "!=", "===", "!=="] with
    | some (token, t2) => do
      let (right, t3) ← pEquality fuel text opts t2
      .ok (binaryFn left token.fn right, t3)
    | none => .ok (left, t1)

def pRelational : Nat → String → IExpressionCompilerOptions → List Token →
    Except PErr (CExpr × List Token)
  | 0, _, _, _ => .error ⟨"fuel", "recursion budget exhausted"⟩
  | fuel + 1, text, opts, toks => do
    let (left, t1) ← pAdditive fuel text opts toks
    match expectTok t1 ["<", ">", "<=", ">="] with
    | some (token, t2) => do
      let (right, t3) ← pRelational fuel text opts t2
      .ok (binaryFn left token.fn right, t3)
    | none => .ok (left, t1)

def pAdditive : Nat → String → IExpressionCompilerOptions → List Token →
    Except PErr (CExpr × List Token)
  | 0, _, _, _ => .error ⟨"fuel", "recursion budget exhausted"⟩
  | fuel + 1, text, opts, toks => do
    let (left, t1) ← pMultiplicative fuel text opts toks
    pAdditiveLoop fuel text opts left t1

def pAdditiveLoop : Nat → String → IExpressionCompilerOptions → CExpr →
    List Token → Except PErr (CExpr × List Token)
  | 0, _, _, _, _ => .error ⟨"fuel", "recursion budget exhausted"⟩
  | fuel + 1, text, opts, left, toks =>
    match expectTok toks ["+", "-"] with
    | some (token, t2) => do
      let (right, t3) ← pMultiplicative fuel text opts t2
      pAdditiveLoop fuel text opts (binaryFn left token.fn right) t3
    | none => .ok (left, toks)

def pMultiplicative : Nat → String → IExpressionCompilerOptions → List Token →
    Except PErr (CExpr × List Token)
  | 0, _, _, _ => .error ⟨"fuel", "recursion budget exhausted"⟩
  | fuel + 1, text, opts, toks => do
    let (left, t1) ← pUnary fuel text opts toks
    pMultiplicativeLoop fuel text opts left t1

def pMultiplicativeLoop : Nat → String → IExpressionCompilerOptions → CExpr →
    List Token → Except PErr (CExpr × List Token)
  | 0, _, _, _, _ => .error ⟨"fuel", "recursion budget exhausted"⟩
  | fuel + 1, text, opts, left, toks =>
    match expectTok toks ["*", "/", "%"] with
    | some (token, t2) => do
      let (right, t3) ← pUnary fuel text opts t2
      pMultiplicativeLoop fuel text opts (binaryFn left token.fn right) t3
    | none => .ok (left, toks)

/-- The source `Parser.unary`: unary `+` is dropped (straight to
`primary`), unary `-` becomes `0 - operand`, `!` negates. -/
def pUnary : Nat → String → IExpressionCompilerOptions → List Token →
    Except PErr (CExpr × List Token)
  | 0, _, _, _ => .error ⟨"fuel", "recursion budget exhausted"⟩
  | fuel + 1, text, opts, toks =>
    match expectTok toks ["+"] with
    | some (_, t1) => pPrimary fuel text opts t1
    | none =>
      match expectTok toks ["-"] with
      | some (token, t1) => do
        let (right, t2) ← pUnary fuel text opts t1
        .ok (binaryFn ZERO token.fn right, t2)
      | none =>
        match expectTok toks ["!"] with
        | some (token, t1) => do
          let (right, t2) ← pUnary fuel text opts t1
          .ok (unaryFn token.fn right, t2)
        | none => pPrimary fuel text opts toks

/-- The source `Parser.primary`: a parenthesized filter chain, an array or
object literal, or a bare token (whose `json` flag sets `constant` and
`literal`), followed by the postfix call/index/field loop.  An empty token
stream crashes `expect()`-then-`.fn` in the source, hence `TypeError`. -/
def pPrimary : Nat → String → IExpressionCompilerOptions → List Token →
    Except PErr (CExpr × List Token)
  | 0, _, _, _ => .error ⟨"fuel", "recursion budget exhausted"⟩
  | fuel + 1, text, opts, toks =>
    match expectTok toks ["("] with
    | some (_, t1) => do
      let (prim, t2) ← pFilterChain fuel text opts t1
      let t3 ← pConsume text ")" t2
      pPrimaryLoop fuel text opts prim none t3
    | none =>
      match expectTok toks ["["] with
      | some (_, t1) => do
        let (prim, t2) ← pArrayDeclaration fuel text opts t1
        pPrimaryLoop fuel text opts prim none t2
      | none =>
        match expectTok toks [String.mk ['\x7b']] with
        | some (_, t1) => do
          let (prim, t2) ← pObject fuel text opts t1
          pPrimaryLoop fuel text opts prim none t2
        | none =>
          match expectTok toks [] with
          | none => .error ⟨"TypeError", "cannot read property fn of undefined"⟩
          | some (token, t1) =>
            match token.fn with
            | none => .error (parserThrow text "not a primary expression" (some token))
            | some tf =>
              let prim := tokFnToCExpr tf
              let prim :=
                if token.json then
                  (⟨prim.run, prim.runSelf, prim.assign, true, true⟩ : CExpr)
                else prim
              pPrimaryLoop fuel text opts prim none t1

/-- The postfix loop of `Parser.primary`: chained `(`-calls, `[`-indexing
and `.`-field access, the latter two remembering the receiver as the call
context. -/
def pPrimaryLoop : Nat → String → IExpressionCompilerOptions → CExpr →
    Option CExpr → List Token → Except PErr (CExpr × List Token)
  | 0, _, _, _, _, _ => .error ⟨"fuel", "recursion budget exhausted"⟩
  | fuel + 1, text, opts, prim, context, toks =>
    match expectTok toks ["(", "[", "."] with
    | some (next, t1) =>
      if next.text == "(" then do
        let (prim2, t2) ← pFunctionCall fuel text opts prim context t1
        pPrimaryLoop fuel text opts prim2 none t2
      else if next.text == "[" then do
        let (prim2, t2) ← pObjectIndex fuel text opts prim t1
        pPrimaryLoop fuel text opts prim2 (some prim) t2
      else do
        let (prim2, t2) ← pFieldAccess fuel text opts prim t1
        pPrimaryLoop fuel text opts prim2 (some prim) t2
    | none => .ok (prim, toks)

/-- The source `Parser.fieldAccess(object)`: the next token's text is the
field name; reads go through a getter invoked without a `locals` argument
(so without shadowing or hooks), writes through `setter` with the live
`locals`.  The update of an interior object is aliasing the tree model
cannot express; its write effects stay visible in the effect list. -/
def pFieldAccess : Nat → String → IExpressionCompilerOptions → CExpr →
    List Token → Except PErr (CExpr × List Token)
  | 0, _, _, _, _ => .error ⟨"fuel", "recursion budget exhausted"⟩
  | _ + 1, text, _, objE, toks =>
    match expectTok toks [] with
    | none => .error ⟨"TypeError", "cannot read property text of undefined"⟩
    | some (token, t1) => do
      let field := token.text
      let getter ← getterFnBuild field text
      .ok (⟨fun scope locals =>
          evalBind (objE.run scope locals) fun ov s1 e1 =>
          match getter ov emptyLocals with
          | .error e => .error e
          | .ok v => .ok (v, s1, e1),
        some (fun scope locals self =>
          if jsTruthy self then
            match getter self emptyLocals with
            | .error e => .error e
            | .ok v => .ok (v, scope, [])
          else
            evalBind (objE.run scope locals) fun ov s1 e1 =>
            match getter ov emptyLocals with
            | .error e => .error e
            | .ok v => .ok (v, s1, e1)),
        some (fun scope value locals =>
          evalBind (objE.run scope locals) fun ov s1 e1 =>
          match setter ov field value text locals with
          | .error e => .error e
          | .ok (ret, _, effs) => .ok (ret, s1, e1 ++ effs)),
        false, false⟩, t1)

/-- The source `Parser.objectIndex(obj)`: a falsy receiver reads as
`undefined`; reads and writes defer to the index hooks when present; every
read value and the write receiver pass `ensureSafeObject`. -/
def pObjectIndex : Nat → String → IExpressionCompilerOptions → CExpr →
    List Token → Except PErr (CExpr × List Token)
  | 0, _, _, _, _ => .error ⟨"fuel", "recursion budget exhausted"⟩
  | fuel + 1, text, opts, objE, toks => do
    let (indexFn, t1) ← pExpression fuel text opts toks
    let t2 ← pConsume text "]" t1
    .ok (⟨fun s l =>
        evalBind (objE.run s l) fun o s1 e1 =>
        evalBind (indexFn.run s1 l) fun i s2 e2 =>
        if !jsTruthy o then .ok (.undef, s2, e1 ++ e2)
        else
          let v :=
            match getRuntimeHooks l with
            | some h =>
              match h.readIndexHook with
              | some ri => ri o i
              | none => jsIndex o i
            | none => jsIndex o i
          match ensureSafeObject v text with
          | .error e => .error e
          | .ok v2 => .ok (v2, s2, e1 ++ e2),
      none,
      some (fun s value l =>
        evalBind (indexFn.run s l) fun key s1 e1 =>
        evalBind (objE.run s1 l) fun ov s2 e2 =>
        match ensureSafeObject ov text with
        | .error e => .error e
        | .ok safe =>
          match getRuntimeHooks l with
          | some h =>
            if h.writeIndexHook then
              .ok (value, s2, e1 ++ e2 ++ [.indexHookCall safe key value])
            else .ok (value, s2, e1 ++ e2 ++ [.directIndexWrite safe key value])
          | none => .ok (value, s2, e1 ++ e2 ++ [.directIndexWrite safe key value])),
      false, false⟩, t2)

/-- The source `Parser.functionCall(fn, contextGetter)`.  With calls
disallowed the source reaches `throwError` without a token (`TypeError`).
At evaluation time: context, then arguments, then the callee evaluate in
order; a falsy callee degrades to `noop`; context and callee pass
`ensureSafeObject`; the only callable value of the model is rejected
there, and calling any other truthy value is the runtime `TypeError`. -/
def pFunctionCall : Nat → String → IExpressionCompilerOptions → CExpr →
    Option CExpr → List Token → Except PErr (CExpr × List Token)
  | 0, _, _, _, _, _ => .error ⟨"fuel", "recursion budget exhausted"⟩
  | fuel + 1, text, opts, fnE, context, toks => do
    if opts.disallowFunctionCalls then
      .error ⟨"TypeError", "cannot read property text of undefined"⟩
    else do
      let t0 ← peekToken text toks
      let (argsFns, t1) ←
        if t0.text != ")" then pCallArgs fuel text opts [] toks
        else pure (([] : List CExpr), toks)
      let t2 ← pConsume text ")" t1
      .ok (CExpr.simple (fun scope locals =>
        evalBind (match context with
            | some cg => cg.run scope locals
            | none => .ok (scope, scope, [])) fun ctxV s0 e0 =>
        match evalArgsGo argsFns s0 locals [] [] with
        | .error e => .error e
        | .ok (_, s1, e1) =>
          evalBind (match fnE.runSelf with
              | some r3 => r3 s1 locals ctxV
              | none => fnE.run s1 locals) fun fv s2 e2 =>
          match ensureSafeObject ctxV text with
          | .error e => .error e
          | .ok _ =>
            if jsTruthy fv then
              match ensureSafeObject fv text with
              | .error e => .error e
              | .ok _ => .error ⟨"TypeError", "value is not a function"⟩
            else .ok (.undef, s2, e0 ++ e1 ++ e2)), t2)

def pCallArgs : Nat → String → IExpressionCompilerOptions → List CExpr →
    List Token → Except PErr (List CExpr × List Token)
  | 0, _, _, _, _ => .error ⟨"fuel", "recursion budget exhausted"⟩
  | fuel + 1, text, opts, acc, toks => do
    let (e, t1) ← pExpression fuel text opts toks
    match expectTok t1 [","] with
    | some (_, t2) => pCallArgs fuel text opts (acc ++ [e]) t2
    | none => .ok (acc ++ [e], t1)

/-- The source `Parser.arrayDeclaration`, with ES5.1 trailing commas. -/
def pArrayDeclaration : Nat → String → IExpressionCompilerOptions → List Token →
    Except PErr (CExpr × List Token)
  | 0, _, _, _ => .error ⟨"fuel", "recursion budget exhausted"⟩
  | fuel + 1, text, opts, toks => do
    let t0 ← peekToken text toks
    let (elems, allConstant, t1) ←
      if t0.text != "]" then pArrayElems fuel text opts [] true toks
      else pure (([] : List CExpr), true, toks)
    let t2 ← pConsume text "]" t1
    .ok (⟨fun s l =>
        match evalArgsGo elems s l [] [] with
        | .error e => .error e
        | .ok (vs, s1, e1) => .ok (.arr vs, s1, e1),
      none, none, allConstant, true⟩, t2)

def pArrayElems : Nat → String → IExpressionCompilerOptions → List CExpr →
    Bool → List Token → Except PErr (List CExpr × Bool × List Token)
  | 0, _, _, _, _, _ => .error ⟨"fuel", "recursion budget exhausted"⟩
  | fuel + 1, text, opts, acc, allConstant, toks =>
    match peekTok toks ["]"] with
    | some _ => .ok (acc, allConstant, toks)
    | none => do
      let (e, t1) ← pExpression fuel text opts toks
      let allConstant2 := allConstant && e.constant
      match expectTok t1 [","] with
      | some (_, t2) => pArrayElems fuel text opts (acc ++ [e]) allConstant2 t2
      | none => .ok (acc ++ [e], allConstant2, t1)

/-- The source `Parser.object` (object literals), with trailing commas;
keys come from the token's cooked string when present (and non-empty),
else its text. -/
def pObject : Nat → String → IExpressionCompilerOptions → List Token →
    Except PErr (CExpr × List Token)
  | 0, _, _, _ => .error ⟨"fuel", "recursion budget exhausted"⟩
  | fuel + 1, text, opts, toks => do
    let t0 ← peekToken text toks
    let (kvs, allConstant, t1) ←
      if t0.text != String.mk ['\x7d'] then pObjectPairs fuel text opts [] true toks
      else pure (([] : List (String × CExpr)), true, toks)
    let t2 ← pConsume text (String.mk ['\x7d']) t1
    .ok (⟨fun s l => pObjectEval kvs s l (.obj []) [],
      none, none, allConstant, true⟩, t2)

def pObjectPairs : Nat → String → IExpressionCompilerOptions →
    List (String × CExpr) → Bool → List Token →
    Except PErr (List (String × CExpr) × Bool × List Token)
  | 0, _, _, _, _, _ => .error ⟨"fuel", "recursion budget exhausted"⟩
  | fuel + 1, text, opts, acc, allConstant, toks =>
    match peekTok toks [String.mk ['\x7d']] with
    | some _ => .ok (acc, allConstant, toks)
    | none =>
      match expectTok toks [] with
      | none => .error ⟨"TypeError", "cannot read property string of undefined"⟩
      | some (token, t1) => do
        let key :=
          match token.string with
          | some s => if s == "" then token.text else s
          | none => token.text
        let t2 ← pConsume text ":" t1
        let (value, t3) ← pExpression fuel text opts t2
        let allConstant2 := allConstant && value.constant
        match expectTok t3 [","] with
        | some (_, t4) => pObjectPairs fuel text opts (acc ++ [(key, value)]) allConstant2 t4
        | none => .ok (acc ++ [(key, value)], allConstant2, t3)

def pObjectEval : List (String × CExpr) → JSVal → Locals → JSVal →
    List WriteEff → EvalRes
  | [], s, _, o, effs => .ok (o, s, effs)
  | (k, e) :: rest, s, l, o, effs =>
    match e.run s l with
    | .error err => .error err
    | .ok (v, s2, e2) => pObjectEval rest s2 l (jsSet o k v) (effs ++ e2)

end

/-- The source `Parser.parse(text)`: lex, parse the statement list, reject
trailing tokens, coerce the flags to booleans.  The fuel majorizes the
recursion depth of the descent (each level consumes fuel, tokens bound the
loops). -/
def parse (text : String) (opts : IExpressionCompilerOptions) : Except PErr CExpr := do
  let toks ← lex text
  let (value, rest) ← pStatements (32 * (toks.length + 2)) text opts [] toks
  match rest with
  | [] => .ok value
  | t :: _ => .error (parserThrow text "is an unexpected token" (some t))

/-- The expression cache `compileExpression` fills, as explicit state. -/
abbrev ExprCache := List (String × CExpr)

def exprCacheLookup (cache : ExprCache) (src : String) : Option CExpr :=
  (cache.find? (fun p => p.1 == src)).map (fun p => p.2)

/-- The source `compileExpression(src, options, cache)`: a non-string
source is a `TypeError`; with a cache, a present entry is returned as is,
else the parse result is stored and returned; without a cache every call
parses. -/
def compileExpression (src : JSVal) (opts : IExpressionCompilerOptions)
    (cache : Option ExprCache) : Except PErr (CExpr × Option ExprCache) :=
  match src with
  | .str s =>
    (match cache with
    | none => (parse s opts).map (fun c => (c, none))
    | some c =>
      match exprCacheLookup c s with
      | some hit => .ok (hit, some c)
      | none => (parse s opts).map (fun ce => (ce, some ((s, ce) :: c))))
  | v =>
    .error ⟨"TypeError",
      "src must be a string, instead saw \x27" ++ jsTypeof v ++ "\x27"⟩

/-- Compilation with the default options, as the claims exercise it. -/
def compileExpr (src : String) : Except PErr CExpr := parse src ⟨false⟩

/-- Compile and evaluate, returning value, updated scope and effects. -/
def compileRunFull (src : String) (scope : JSVal) (locals : Locals) :
    Except PErr EvalTriple :=
  match compileExpr src with
  | .error e => .error e
  | .ok c => c.run scope locals

/-- Compile and evaluate, returning just the value. -/
def compileRun (src : String) (scope : JSVal) (locals : Locals) :
    Except PErr JSVal :=
  match compileRunFull src scope locals with
  | .error e => .error e
  | .ok (v, _, _) => .ok v

/-- The error kind of a failing compilation, if any. -/
def compileErrKind (src : String) : Option String :=
  match compileExpr src with
  | .error e => some e.kind
  | .ok _ => none

/-- The error kind of a failing evaluation of a compiled source, if any. -/
def runErrKind (src : String) (scope : JSVal) (locals : Locals) : Option String :=
  match compileRunFull src scope locals with
  | .error e => some e.kind
  | .ok _ => none

/-- An object-literal token: `{key, value}`, or `{unknown: key, value:
undefined}` for a key with no following value. -/
inductive IObjectLiteralToken where
  | kv (key : String) (value : String)
  | unknown (key : String)
deriving DecidableEq

/-- JavaScript `\s` for the characters the tokenizer meets. -/
def isJsSpace (c : Char) : Bool :=
  c == ' ' || c == '\t' || c == '\n' || c == '\r' || c == '\x0b' || c == '\x0c'
    || c == Char.ofNat 160

/-- The `specials` character set of the tokenizer:
comma, the two quotes, braces, parentheses, slash, colon, brackets. -/
def specialsOL : List Char :=
  [',', '"', '\x27', '\x7b', '\x7d', '(', ')', '/', ':', '[', ']']

/-- Greedy scan of a quoted alternative (`stringDouble`/`stringSingle`):
escape pairs or non-quote characters, then the closing quote.  The regex
`.` does not match a line terminator, so a backslash before one fails. -/
def matchQuotedGo (q : Char) : Nat → List Char → List Char →
    Option (List Char × List Char)
  | 0, _, _ => none
  | fuel + 1, acc, cs =>
    match cs with
    | [] => none
    | c :: rest =>
      if c == '\\' then
        match rest with
        | [] => none
        | d :: rest2 =>
          if d == '\n' || d == '\r' then none
          else matchQuotedGo q fuel (acc ++ [c, d]) rest2
      else if c == q then some (acc ++ [c], rest)
      else matchQuotedGo q fuel (acc ++ [c]) rest

def matchQuoted (q : Char) (cs : List Char) : Option (List Char × List Char) :=
  match cs with
  | c :: rest => if c == q then matchQuotedGo q (rest.length + 1) [c] rest else none
  | [] => none

def isWordCh (c : Char) : Bool :=
  ('a' ≤ c && c ≤ 'z') || ('A' ≤ c && c ≤ 'Z') || isNumberCh c || c == '_'

/-- The `stringRegexp` alternative `/(?:[^/\\]|\\.)*/\w*`. -/
def matchRegexLikeGo : Nat → List Char → List Char →
    Option (List Char × List Char)
  | 0, _, _ => none
  | fuel + 1, acc, cs =>
    match cs with
    | [] => none
    | c :: rest =>
      if c == '\\' then
        match rest with
        | [] => none
        | d :: rest2 =>
          if d == '\n' || d == '\r' then none
          else matchRegexLikeGo fuel (acc ++ [c, d]) rest2
      else if c == '/' then
        let flags := rest.takeWhile isWordCh
        some (acc ++ [c] ++ flags, rest.drop flags.length)
      else matchRegexLikeGo fuel (acc ++ [c]) rest

def matchRegexLike (cs : List Char) : Option (List Char × List Char) :=
  match cs with
  | c :: rest => if c == '/' then matchRegexLikeGo (rest.length + 1) [c] rest else none
  | [] => none

/-- The `everyThingElse` alternative: a first character that is not
whitespace, colon, comma or slash, then the longest run of non-special
characters whose last character is not whitespace (at least two characters
in total). -/
def matchEveryThingElse (cs : List Char) : Option (List Char × List Char) :=
  match cs with
  | [] => none
  | c0 :: rest =>
    if isJsSpace c0 || c0 == ':' || c0 == ',' || c0 == '/' then none
    else
      let run := rest.takeWhile (fun c => !specialsOL.contains c)
      let trimmed := (run.reverse.dropWhile isJsSpace).reverse
      if trimmed.isEmpty then none
      else some (c0 :: trimmed, rest.drop trimmed.length)

/-- The ordered alternation `bindingToken` applied at one position. -/
def bindingTokenAt (cs : List Char) : Option (List Char × List Char) :=
  match matchQuoted '"' cs with
  | some r => some r
  | none =>
    match matchQuoted '\x27' cs with
    | some r => some r
    | none =>
      match matchRegexLike cs with
      | some r => some r
      | none =>
        match matchEveryThingElse cs with
        | some r => some r
        | none =>
          match cs with
          | c :: rest => if isJsSpace c then none else some ([c], rest)
          | [] => none

/-- Global matching of `bindingToken` (`str.match(bindingToken)`): scan
left to right, recording each match and stepping one character past an
unmatched position. -/
def bindingTokensGo : Nat → List Char → List String → List String
  | 0, _, acc => acc
  | fuel + 1, cs, acc =>
    match cs with
    | [] => acc
    | _ :: rest =>
      match bindingTokenAt cs with
      | some (tok, rest2) => bindingTokensGo fuel rest2 (acc ++ [String.mk tok])
      | none => bindingTokensGo fuel rest acc

def bindingTokens (cs : List Char) : List String :=
  bindingTokensGo (cs.length + 1) cs []

/-- The trailing run of `divisionLookBehind` characters
(`[\])"'A-Za-z0-9_$]+$`) of the previous token, when non-empty. -/
def isDivLookBehindCh (c : Char) : Bool :=
  c == ']' || c == ')' || c == '"' || c == '\x27' || ('a' ≤ c && c ≤ 'z')
    || ('A' ≤ c && c ≤ 'Z') || isNumberCh c || c == '_' || c == '$'

def divisionLookBehindMatch (prev : String) : Option String :=
  let trailing := (prev.toList.reverse.takeWhile isDivLookBehindCh).reverse
  if trailing.isEmpty then none else some (String.mk trailing)

/-- The `keywordRegexLookBehind` table: `in`, `return`, `typeof`. -/
def keywordRegexLookBehind (s : String) : Bool :=
  s == "in" || s == "return" || s == "typeof"

/-- The per-token decision of the parsing loop that a slash-initial token
is actually the division operator: a non-initial token of length > 1
starting with `/` whose previous token ends in a `divisionLookBehind`
match that is not one of the lookbehind keywords. -/
def slashIsDivision (prevTok tok : String) (i : Nat) : Bool :=
  tok.toList.headD ' ' == '/' && i != 0 && tok.length > 1 &&
    (match divisionLookBehindMatch prevTok with
      | some m => !keywordRegexLookBehind m
      | none => false)

/-- First index of `pat` inside `hay` (`String.indexOf`; the callers only
use it when `pat` occurs). -/
def indexOfSubGo (pat : List Char) : Nat → List Char → Nat → Nat
  | 0, _, acc => acc
  | fuel + 1, hay, acc =>
    if pat.isPrefixOf hay then acc
    else
      match hay with
      | [] => acc
      | _ :: t => indexOfSubGo pat fuel t (acc + 1)

def indexOfSub (hay pat : List Char) : Nat :=
  indexOfSubGo pat (hay.length + 1) hay 0

/-- Truthiness of the `key` loop variable (`0` or a string). -/
def olKeyFalsy : Option String → Bool
  | none => true
  | some k => k == ""

/-- The flush at a depth-zero comma: a truthy key yields `{key, value}`
when values accumulated, else the `unknown` token. -/
def flushPair (key : Option String) (values : Option (List String))
    (result : List IObjectLiteralToken) : List IObjectLiteralToken :=
  match key with
  | some k =>
    if k != "" then
      result ++ [match values with
        | some vs => .kv k (String.join vs)
        | none => .unknown k]
    else result
  | none => result

/-- The scanning loop of `parseObjectLiteral` over the matched tokens:
depth-zero commas flush the current pair; a colon before any value is
skipped; a regex-like token reinterpreted as division re-tokenizes the
remaining text (restarting at index 0 with a lone `/` accumulated);
brackets track nesting depth; the first token of a pair becomes the key
(unquoted when string-quoted); every other token accumulates into the
value. -/
def olLoop : Nat → List Char → List String → Nat → Option String →
    Option (List String) → Int → List IObjectLiteralToken →
    Except PErr (List IObjectLiteralToken)
  | 0, _, _, _, _, _, _, _ => .error ⟨"fuel", "tokenizer budget exhausted"⟩
  | fuel + 1, str, toks, i, key, values, depth, result =>
    match toks.get? i with
    | none => .ok result
    | some tok =>
      let c : Nat := (tok.toList.headD ' ').toNat
      if c == 44 && depth ≤ 0 then
        olLoop fuel str toks (i + 1) none none 0 (flushPair key values result)
      else if c == 44 then
        olLoop fuel str toks (i + 1) key (some ((values.getD []) ++ [tok])) depth result
      else if c == 58 then
        if values.isNone then olLoop fuel str toks (i + 1) key values depth result
        else olLoop fuel str toks (i + 1) key (some ((values.getD []) ++ [tok])) depth result
      else if c == 47 && i != 0 && tok.length > 1 then
        if slashIsDivision (toks.getD (i - 1) "") tok i then
          let idx := indexOfSub str tok.toList
          let str2 := str.drop (idx + 1)
          let toks2 := bindingTokens str2
          if toks2.isEmpty then
            .error ⟨"TypeError", "cannot push onto a null match result"⟩
          else
            olLoop fuel str2 (toks2 ++ [","]) 0 key
              (some ((values.getD []) ++ ["/"])) depth result
        else
          olLoop fuel str toks (i + 1) key (some ((values.getD []) ++ [tok])) depth result
      else if c == 40 || c == 123 || c == 91 then
        olLoop fuel str toks (i + 1) key (some ((values.getD []) ++ [tok])) (depth + 1) result
      else if c == 41 || c == 125 || c == 93 then
        olLoop fuel str toks (i + 1) key (some ((values.getD []) ++ [tok])) (depth - 1) result
      else if olKeyFalsy key && values.isNone then
        let key2 :=
          if c == 34 || c == 39 then String.mk ((tok.toList.drop 1).dropLast) else tok
        olLoop fuel str toks (i + 1) (some key2) values depth result
      else
        olLoop fuel str toks (i + 1) key (some ((values.getD []) ++ [tok])) depth result

/-- The source `parseObjectLiteral(objectLiteralString)`: trim, strip a
surrounding `{...}`, tokenize, append a synthetic trailing comma, scan.
The one failure mode is the re-tokenization of an all-blank remainder,
where the source pushes onto the `null` that `match` returns. -/
def parseObjectLiteral (objectLiteralString : String) :
    Except PErr (List IObjectLiteralToken) :=
  let str0 := (((objectLiteralString.toList.dropWhile isJsSpace).reverse.dropWhile
    isJsSpace).reverse)
  let str := if str0.headD ' ' == '\x7b' then (str0.drop 1).dropLast else str0
  let toks := bindingTokens str
  if toks.isEmpty then .ok []
  else olLoop ((str.length + 2) * (str.length + 2) + 4) str (toks ++ [","]) 0
    none none 0 []

/-! ## Fixtures and helper lemmas for the claim theorems -/

/-- A scope `{x: F}` where `F.constructor === F` (such as `Function`). -/
def funcScope : JSVal := .obj [("x", .funcSelf)]

/-- The scope `{a: undefined, b: 5}`. -/
def undefPlusScope : JSVal := .obj [("a", .undef), ("b", .num 5)]

/-- The scope `{a: {b: {c: 5}}}`. -/
def pathScopeFull : JSVal := .obj [("a", .obj [("b", .obj [("c", .num 5)])])]

/-- The scope `{a: {}}`. -/
def pathScopeEmpty : JSVal := .obj [("a", .obj [])]

/-- A six-level nested scope carrying `a.b.c.d.e.f = 5`. -/
def deepScope : JSVal :=
  .obj [("a", .obj [("b", .obj [("c", .obj [("d", .obj [("e",
    .obj [("f", .num 5)])])])])])]

/-- A `locals` owning `f` (and nothing else, no hooks). -/
def deepLocals : Locals := ⟨[("f", .num 99)], none⟩

/-- The scope `{a: {b: 7}}` of the assignment claim. -/
def hookScope : JSVal := .obj [("a", .obj [("b", .num 7)])]

/-- A `locals` carrying runtime hooks whose `writeFieldHook` records calls
(no read hooks). -/
def recordingHookLocals : Locals := ⟨[], some ⟨none, true, none, false⟩⟩

theorem isDefined_of_ne {v : JSVal} (h : v ≠ .undef) : isDefined v = true := by
  cases v <;> simp_all [isDefined]

/-! ## Claim theorems -/

/-- C2: compiling `"x.constructor"` fails at compile time with the
reserved-name sandbox kind `isecfld`; `"x()"` compiles, and evaluating it
with `x` bound to a value whose `constructor` equals itself fails at
evaluation time with the function-object sandbox kind `isecfn`; the two
kinds are distinct. -/
theorem c2_sandbox_layers_distinct :
    compileErrKind "x.constructor" = some "isecfld"
    ∧ (compileExpr "x()").isOk = true
    ∧ runErrKind "x()" funcScope emptyLocals = some "isecfn"
    ∧ (("isecfld" : String) == "isecfn") = false :=
  ⟨rfl, rfl, rfl, rfl⟩

/-- C5: evaluated through the `OPERATORS['+']` closure, an undefined
operand makes the result the other operand's value unchanged; through
`OPERATORS['-']`, an undefined operand is replaced by `0`, so
`undefined - n` is `-n` (a number, not `NaN`); and concretely
`compile("a+b")({a: undefined, b: 5}, {})` is `5` while
`compile("a-b")` there is `-5`. -/
theorem c5_identity_default_arithmetic :
    (∀ (a b : EvalFn) (self : JSVal) (locals : Locals) (v s1 s2 : JSVal)
        (e1 e2 : List WriteEff),
      a self locals = .ok (.undef, s1, e1) → b s1 locals = .ok (v, s2, e2) →
      opAdd a b self locals = .ok (v, s2, e1 ++ e2))
    ∧ (∀ (a b : EvalFn) (self : JSVal) (locals : Locals) (v s1 s2 : JSVal)
        (e1 e2 : List WriteEff),
      a self locals = .ok (v, s1, e1) → v ≠ .undef →
      b s1 locals = .ok (.undef, s2, e2) →
      opAdd a b self locals = .ok (v, s2, e1 ++ e2))
    ∧ (∀ (a b : EvalFn) (self : JSVal) (locals : Locals) (n : Int) (s1 s2 : JSVal)
        (e1 e2 : List WriteEff),
      a self locals = .ok (.undef, s1, e1) → b s1 locals = .ok (.num n, s2, e2) →
      opSub a b self locals = .ok (.num (-n), s2, e1 ++ e2))
    ∧ compileRun "a+b" undefPlusScope emptyLocals = .ok (.num 5)
    ∧ compileRun "a-b" undefPlusScope emptyLocals = .ok (.num (-5)) := by
  refine ⟨?_, ?_, ?_, rfl, rfl⟩
  · intro a b self locals v s1 s2 e1 e2 ha hb
    by_cases hv : v = .undef
    · subst hv; simp [opAdd, evalBind, ha, hb, isDefined]
    · simp [opAdd, evalBind, ha, hb, isDefined, isDefined_of_ne hv]
  · intro a b self locals v s1 s2 e1 e2 ha hv hb
    simp [opAdd, evalBind, ha, hb, isDefined_of_ne hv, isDefined]
  · intro a b self locals n s1 s2 e1 e2 ha hb
    simp [opSub, evalBind, ha, hb, isDefined, jsSub, jsToNumber]

/-- C6: reading `"a.b.c"` on `{a:{b:{c:5}}}` yields `5`, and on `{a:{}}`
yields `undefined` without an error; in general, in the hook-free branch of
the up-to-5-key getter, a nullish value at any intermediate position
short-circuits the whole read to `undefined`. -/
theorem c6_path_read_short_circuits :
    compileRun "a.b.c" pathScopeFull emptyLocals = .ok (.num 5)
    ∧ compileRun "a.b.c" pathScopeEmpty emptyLocals = .ok .undef
    ∧ (∀ (key0 : String) (k1 k2 k3 k4 : Option String) (pv : JSVal),
      isNullish pv = false → falsyKey k1 = false →
      isNullish (jsGet pv key0) = true →
      cspSafeGetterEval.cspSafeGetterEvalPlain key0 k1 k2 k3 k4 pv = .undef)
    ∧ (∀ (key0 : String) (k1 k2 k3 k4 : Option String) (pv : JSVal),
      isNullish pv = false → falsyKey k1 = false → falsyKey k2 = false →
      isNullish (jsGet pv key0) = false →
      isNullish (jsGet (jsGet pv key0) (k1.getD "")) = true →
      cspSafeGetterEval.cspSafeGetterEvalPlain key0 k1 k2 k3 k4 pv = .undef)
    ∧ (∀ (key0 : String) (k1 k2 k3 k4 : Option String) (pv : JSVal),
      isNullish pv = false → falsyKey k1 = false → falsyKey k2 = false →
      falsyKey k3 = false →
      isNullish (jsGet pv key0) = false →
      isNullish (jsGet (jsGet pv key0) (k1.getD "")) = false →
      isNullish (jsGet (jsGet (jsGet pv key0) (k1.getD "")) (k2.getD "")) = true →
      cspSafeGetterEval.cspSafeGetterEvalPlain key0 k1 k2 k3 k4 pv = .undef)
    ∧ (∀ (key0 : String) (k1 k2 k3 k4 : Option String) (pv : JSVal),
      isNullish pv = false → falsyKey k1 = false → falsyKey k2 = false →
      falsyKey k3 = false → falsyKey k4 = false →
      isNullish (jsGet pv key0) = false →
      isNullish (jsGet (jsGet pv key0) (k1.getD "")) = false →
      isNullish (jsGet (jsGet (jsGet pv key0) (k1.getD "")) (k2.getD "")) = false →
      isNullish (jsGet (jsGet (jsGet (jsGet pv key0) (k1.getD "")) (k2.getD ""))
        (k3.getD "")) = true →
      cspSafeGetterEval.cspSafeGetterEvalPlain key0 k1 k2 k3 k4 pv = .undef) := by
  refine ⟨rfl, rfl, ?_, ?_, ?_, ?_⟩
  · intro key0 k1 k2 k3 k4 pv h0 hk1 h1
    simp [cspSafeGetterEval.cspSafeGetterEvalPlain, h0, hk1, h1]
  · intro key0 k1 k2 k3 k4 pv h0 hk1 hk2 h1 h2
    simp [cspSafeGetterEval.cspSafeGetterEvalPlain, h0, hk1, hk2, h1, h2]
  · intro key0 k1 k2 k3 k4 pv h0 hk1 hk2 hk3 h1 h2 h3
    simp [cspSafeGetterEval.cspSafeGetterEvalPlain, h0, hk1, hk2, hk3, h1, h2, h3]
  · intro key0 k1 k2 k3 k4 pv h0 hk1 hk2 hk3 hk4 h1 h2 h3 h4
    simp [cspSafeGetterEval.cspSafeGetterEvalPlain, h0, hk1, hk2, hk3, hk4, h1, h2,
      h3, h4]

/-- Witness for C6 at concrete inputs: path `a.b.c` over `{a:{}}`, where
the value after `a` is `{}` and after `b` is `undefined` (nullish). -/
theorem c6_path_read_short_circuits_witness :
    cspSafeGetterEval.cspSafeGetterEvalPlain "a" (some "b") (some "c") none none
      pathScopeEmpty = .undef :=
  c6_path_read_short_circuits.2.2.2.1 "a" (some "b") (some "c") none none
    pathScopeEmpty rfl rfl rfl rfl rfl

/-- Witness for C5 applied at concrete closures: `undefined + 7` is `7`
and `undefined - 7` is `-7`. -/
theorem c5_identity_default_arithmetic_witness :
    opAdd (constEvalFn .undef) (constEvalFn (.num 7)) (.obj []) emptyLocals
      = .ok (.num 7, .obj [], [])
    ∧ opSub (constEvalFn .undef) (constEvalFn (.num 7)) (.obj []) emptyLocals
      = .ok (.num (-7), .obj [], []) :=
  ⟨c5_identity_default_arithmetic.1 (constEvalFn .undef) (constEvalFn (.num 7))
      (.obj []) emptyLocals (.num 7) (.obj []) (.obj []) [] [] rfl rfl,
    c5_identity_default_arithmetic.2.2.1 (constEvalFn .undef) (constEvalFn (.num 7))
      (.obj []) emptyLocals 7 (.obj []) (.obj []) [] [] rfl rfl⟩

/-- C7: the `OPERATORS['==']` entry is the very same strict-equality
combination as `OPERATORS['===']` (and `'!='` the same as `'!=='`); the
combined closure returns the strict equality of the two evaluated operand
values (its negation for `!=`); and `1 == '1'` evaluates to `false`,
identically to `1 === '1'`. -/
theorem c7_equality_is_strict :
    (∀ (a b : EvalFn) (self : JSVal) (locals : Locals) (va vb s1 s2 : JSVal)
        (e1 e2 : List WriteEff),
      a self locals = .ok (va, s1, e1) → b s1 locals = .ok (vb, s2, e2) →
      binValOp strictEqVal a b self locals
          = .ok (.bool (jsStrictEq va vb), s2, e1 ++ e2)
        ∧ binValOp strictNeVal a b self locals
          = .ok (.bool (!jsStrictEq va vb), s2, e1 ++ e2))
    ∧ OPERATORS "==" = OPERATORS "==="
    ∧ OPERATORS "!=" = OPERATORS "!=="
    ∧ compileRun "1 == \x271\x27" (.obj []) emptyLocals = .ok (.bool false)
    ∧ compileRun "1 === \x271\x27" (.obj []) emptyLocals = .ok (.bool false) := by
  refine ⟨?_, rfl, rfl, rfl, rfl⟩
  intro a b self locals va vb s1 s2 e1 e2 ha hb
  exact ⟨by simp [binValOp, evalBind, ha, hb, strictEqVal],
    by simp [binValOp, evalBind, ha, hb, strictNeVal]⟩

/-- Witness for C7 at concrete closures: comparing the number `1` with the
string `"1"`. -/
theorem c7_equality_is_strict_witness :
    binValOp strictEqVal (constEvalFn (.num 1)) (constEvalFn (.str "1"))
      (.obj []) emptyLocals = .ok (.bool false, .obj [], []) :=
  (c7_equality_is_strict.1 (constEvalFn (.num 1)) (constEvalFn (.str "1"))
    (.obj []) emptyLocals (.num 1) (.str "1") (.obj []) (.obj []) [] [] rfl rfl).1

/-- C9 counterexample: the pair in `parseObjectLiteral "''"` has a
(string-quoted, empty) key with no following `:value`, yet the result
carries no token at all — the `if (key)` guard drops a pair whose unquoted
key is the empty string instead of emitting an `unknown` token, so the
universal part of the claim is false at this input. -/
theorem c9_counterexample_empty_quoted_key :
    parseObjectLiteral "\x27\x27" = .ok []
    ∧ (([] : List IObjectLiteralToken).contains (.unknown "")) = false :=
  ⟨rfl, rfl⟩

/-- C9 amended: `parseObjectLiteral "foo: 1, 'bar-baz': 2"` yields exactly
the ordered pairs `foo ↦ 1` and `bar-baz ↦ 2` with the quotes stripped
from the quoted key; the flush of a pair whose non-empty key accumulated
no value emits the `unknown` token with no value; and a pair whose key is
the empty string is dropped from the result entirely. -/
theorem c9_object_literal_tokenizer :
    parseObjectLiteral "foo: 1, \x27bar-baz\x27: 2"
      = .ok [.kv "foo" "1", .kv "bar-baz" "2"]
    ∧ (∀ (k : String) (result : List IObjectLiteralToken), k ≠ "" →
      flushPair (some k) none result = result ++ [.unknown k])
    ∧ (∀ (values : Option (List String)) (result : List IObjectLiteralToken),
      flushPair (some "") values result = result)
    ∧ parseObjectLiteral "foo" = .ok [.unknown "foo"] := by
  refine ⟨rfl, ?_, ?_, rfl⟩
  · intro k result hk
    simp [flushPair, hk]
  · intro values result
    simp [flushPair]

/-- Witness for C9's flush fact at the concrete key `foo`. -/
theorem c9_object_literal_tokenizer_witness :
    flushPair (some "foo") none [] = [.unknown "foo"] :=
  c9_object_literal_tokenizer.2.1 "foo" [] (by decide)

/-- The getter cache left by a `getterFn` call (unchanged on failure). -/
def getterCacheAfter (cache : GetterFnCache) (path fullExp : String) :
    GetterFnCache :=
  match getterFn cache path fullExp with
  | .ok (_, c2) => c2
  | .error _ => cache

/-- C10: the getter cache never acquires an entry under the key
`"hasOwnProperty"` (so its `hasOwnProperty`-based lookup stays sound); a
cached path is answered from the cache unchanged, and a getter stored for
a path is returned as is by the next call for that path; any other absent
path is built and stored; the path `"hasOwnProperty"` itself is rebuilt on
every call with the cache left unchanged. -/
theorem c10_getter_cache_invariant :
    (∀ (cache : GetterFnCache) (path fullExp : String),
      getterCacheHasKey cache "hasOwnProperty" = false →
      getterCacheHasKey (getterCacheAfter cache path fullExp) "hasOwnProperty"
        = false)
    ∧ (∀ (cache : GetterFnCache) (path fullExp : String) (p : String × GetterFn),
      cache.find? (fun q => q.1 == path) = some p →
      getterFn cache path fullExp = .ok (p.2, cache))
    ∧ (∀ (cache : GetterFnCache) (path fullExp : String) (fn : GetterFn),
      path ≠ "hasOwnProperty" →
      cache.find? (fun q => q.1 == path) = none →
      getterFnBuild path fullExp = .ok fn →
      getterFn cache path fullExp = .ok (fn, (path, fn) :: cache))
    ∧ (∀ (cache : GetterFnCache) (path fullExp : String) (fn : GetterFn),
      getterFn ((path, fn) :: cache) path fullExp = .ok (fn, (path, fn) :: cache))
    ∧ (∀ (cache : GetterFnCache) (fullExp : String),
      cache.find? (fun q => q.1 == "hasOwnProperty") = none →
      getterFn cache "hasOwnProperty" fullExp
        = (getterFnBuild "hasOwnProperty" fullExp).map (fun fn => (fn, cache))) := by
  refine ⟨?_, ?_, ?_, ?_, ?_⟩
  · intro cache path fullExp hinv
    unfold getterCacheAfter getterFn
    cases hf : cache.find? (fun q => q.1 == path) with
    | some hit => simpa using hinv
    | none =>
      cases hb : getterFnBuild path fullExp with
      | error e => simpa using hinv
      | ok fn =>
        by_cases hp : path = "hasOwnProperty"
        · simp [hp, hinv]
        · have hpb : (path == "hasOwnProperty") = false := by simpa using hp
          simp only [hpb, Bool.false_eq_true, if_false]
          simp only [getterCacheHasKey, List.any_cons, List.any_eq_true,
            Bool.or_eq_false_iff] at hinv ⊢
          refine ⟨hpb, ?_⟩
          simpa [getterCacheHasKey] using hinv
  · intro cache path fullExp p hf
    simp [getterFn, hf]
  · intro cache path fullExp fn hp hf hb
    simp [getterFn, hf, hb, hp]
  · intro cache path fullExp fn
    simp [getterFn, List.find?]
  · intro cache fullExp hf
    unfold getterFn
    cases hb : getterFnBuild "hasOwnProperty" fullExp <;> simp [hf, hb, Except.map]

/-- C1 counterexample: for the six-segment path `a.b.c.d.e.f` over a scope
carrying `5` at that path, evaluating the compiled getter with a `locals`
owning `f` returns the `locals` value `99` — the sixth segment (the first
segment of the second 5-key chunk) is resolved against `locals` — while
the same getter without that `locals` entry returns `5`; so the claim
that no segment after the first is ever resolved against `locals` is
false (the two evaluation results are strictly unequal values). -/
theorem c1_counterexample_chunk_head_shadowed :
    compileRun "a.b.c.d.e.f" deepScope deepLocals = .ok (.num 99)
    ∧ compileRun "a.b.c.d.e.f" deepScope emptyLocals = .ok (.num 5)
    ∧ jsStrictEq (.num 99) (.num 5) = false :=
  ⟨rfl, rfl, rfl⟩

/-- C1 amended: the getter for six or more segments evaluates the path in
5-key chunks, handing every chunk the original `locals` snapshot; as a
consequence the shadowing rule applies to the first segment of each chunk,
not only of the whole path — when `locals` owns a chunk's first segment
the chunk's result does not depend on the value accumulated so far, and
when it does not (and the hook entry is the same) the remaining `locals`
entries cannot influence the chunk at all. -/
theorem c1_amended_per_chunk_shadowing :
    (∀ (fullExp : String) (locals : Locals) (fuel : Nat) (scope : JSVal)
        (ks : List String), 5 < ks.length →
      longLoopGo fullExp locals (fuel + 1) scope ks
        = match cspSafeGetterFn (ks.headD "") (ks.get? 1) (ks.get? 2) (ks.get? 3)
            (ks.get? 4) fullExp with
          | .error e => .error e
          | .ok g =>
            match g scope locals with
            | .error e => .error e
            | .ok val => longLoopGo fullExp locals fuel val (ks.drop 5))
    ∧ (∀ (key0 : String) (k1 k2 k3 k4 : Option String) (scope scope2 : JSVal)
        (locals : Locals), localsHasOwn locals key0 = true →
      cspSafeGetterEval key0 k1 k2 k3 k4 scope locals
        = cspSafeGetterEval key0 k1 k2 k3 k4 scope2 locals)
    ∧ (∀ (key0 : String) (k1 k2 k3 k4 : Option String) (scope : JSVal)
        (locals locals2 : Locals),
      locals.hooks = locals2.hooks →
      localsHasOwn locals key0 = false → localsHasOwn locals2 key0 = false →
      cspSafeGetterEval key0 k1 k2 k3 k4 scope locals
        = cspSafeGetterEval key0 k1 k2 k3 k4 scope locals2) := by
  refine ⟨?_, ?_, ?_⟩
  · intro fullExp locals fuel scope ks h
    simp only [longLoopGo, h, if_true]
  · intro key0 k1 k2 k3 k4 scope scope2 locals h
    simp [cspSafeGetterEval, h]
  · intro key0 k1 k2 k3 k4 scope locals locals2 hh h1 h2
    simp [cspSafeGetterEval, getRuntimeHooks, h1, h2, hh]

/-- Witness for C1's amended statement at concrete inputs: with the claim's
`locals` owning `f`, the chunk getter headed by `f` ignores its incoming
scope entirely. -/
theorem c1_amended_per_chunk_shadowing_witness :
    cspSafeGetterEval "f" none none none none deepScope deepLocals
      = cspSafeGetterEval "f" none none none none (.obj []) deepLocals :=
  c1_amended_per_chunk_shadowing.2.1 "f" none none none none deepScope
    (.obj []) deepLocals rfl

/-- C4 counterexample: the expression Lexer performs no slash
disambiguation at all — lexing `(/x/)`, where the character before the
slash-run is `(` (which does not match the lookbehind pattern), still
produces the division-operator token `/` twice rather than keeping `/x/`
as one regex-like token, contradicting the claimed Lexer half of the
rule. -/
theorem c4_counterexample_lexer_always_divides :
    (lex "(/x/)").map (fun l => l.map Token.text) = .ok ["(", "/", "x", "/", ")"]
    ∧ (["(", "/", "x", "/", ")"].contains "/x/") = false :=
  ⟨rfl, rfl⟩

/-- Specification-side restatement of the amended slash-disambiguation
rule, written from the amended claim's words: a slash-initial token of
length greater than one at a non-initial position is division exactly when
the previous token ends in a lookbehind run that is none of the keywords
`in`, `return`, `typeof`. -/
def slashDivisionSpec (prevTok tok : String) (i : Nat) : Prop :=
  tok.toList.headD ' ' = '/' ∧ i ≠ 0 ∧ 1 < tok.length ∧
    ∃ m, divisionLookBehindMatch prevTok = some m ∧
      m ≠ "in" ∧ m ≠ "return" ∧ m ≠ "typeof"

/-- C4 amended: only the object-literal tokenizer reinterprets a
tentatively-scanned regex-like token as division (the Lexer always lexes
`/` as the division operator), and its decision matches the lookbehind
rule with the keyword set `in`, `return` and `typeof`: re-lexing happens
for `a: x/2/y` but not after `typeof`. -/
theorem c4_amended_slash_disambiguation :
    (∀ (prevTok tok : String) (i : Nat),
      slashIsDivision prevTok tok i = true ↔ slashDivisionSpec prevTok tok i)
    ∧ parseObjectLiteral "a: x/2/y" = .ok [.kv "a" "x/2/y"]
    ∧ parseObjectLiteral "a: typeof /2/y" = .ok [.kv "a" "typeof/2/y"]
    ∧ (lex "a/b").map (fun l => l.map Token.text) = .ok ["a", "/", "b"] := by
  refine ⟨?_, rfl, rfl, rfl⟩
  intro prevTok tok i
  unfold slashIsDivision slashDivisionSpec
  cases hm : divisionLookBehindMatch prevTok with
  | none => simp [hm]
  | some m => simp [hm, keywordRegexLookBehind, and_assoc]

/-- Witness for C4's amended rule at concrete inputs: after the previous
token `x`, the regex-like token `/2/y` is division. -/
theorem c4_amended_slash_disambiguation_witness :
    slashIsDivision "x" "/2/y" 3 = true :=
  (c4_amended_slash_disambiguation.1 "x" "/2/y" 3).mpr
    ⟨rfl, by decide, by decide, "x", rfl, by decide, by decide, by decide⟩

/-- C3: compiling `"a.b = 5"` and evaluating it on a scope whose `a` is an
existing object, with `locals` carrying hooks whose `writeFieldHook`
records calls, invokes the write hook exactly once — with the resolved
object `scope.a`, the key `"b"` and the value `5` — and performs no direct
write: the returned scope is the original one (so `scope.a.b` keeps its
prior value).  The general conjunct states this at the `setter` level for
every scope with a truthy `a`, every extra `locals` content and every
assigned value. -/
theorem c3_assignment_defers_to_write_hook :
    compileRunFull "a.b = 5" hookScope recordingHookLocals
      = .ok (.num 5, hookScope,
          [.fieldHookCall (.obj [("b", .num 7)]) "b" (.num 5)])
    ∧ (∀ (scope aVal : JSVal) (lvars : List (String × JSVal))
        (rih : Option (JSVal → JSVal → JSVal)) (wih : Bool)
        (fullExp : String) (setValue : JSVal),
      jsGet scope "a" = aVal → jsTruthy aVal = true →
      setter scope "a.b" setValue fullExp ⟨lvars, some ⟨none, true, rih, wih⟩⟩
        = .ok (setValue, scope, [.fieldHookCall aVal "b" setValue])) := by
  refine ⟨rfl, ?_⟩
  intro scope aVal lvars rih wih fullExp setValue hget htr
  have hsplit : jsSplitDot "a.b" = ["a", "b"] := rfl
  have e1 : ensureSafeMemberName "a" fullExp = .ok "a" := rfl
  have e2 : ensureSafeMemberName "b" fullExp = .ok "b" := rfl
  unfold setter
  rw [hsplit]
  simp [setterWalk, getRuntimeHooks, e1, e2, hookReadField, hget, htr,
    hooksWriteFieldPresent, hooksReadFieldPresent]

/-- Witness for C3's setter-level conjunct at the concrete claim scenario. -/
theorem c3_assignment_defers_to_write_hook_witness :
    setter hookScope "a.b" (.num 5) "a.b = 5" recordingHookLocals
      = .ok (.num 5, hookScope,
          [.fieldHookCall (.obj [("b", .num 7)]) "b" (.num 5)]) :=
  c3_assignment_defers_to_write_hook.2 hookScope (.obj [("b", .num 7)]) []
    none false "a.b = 5" (.num 5) rfl rfl

/-- A compiled expression for the cache witness. -/
def dummyCExpr : CExpr := constCExpr (.undef)

/-- C8: `compileExpression` fails with a `TypeError` on every non-string
source; with a cache it is a pure memo — a present entry is returned with
the cache unchanged, an absent source is parsed, stored under that key and
returned; without a cache every call parses the source. -/
theorem c8_compile_expression_cache :
    (∀ (v : JSVal) (opts : IExpressionCompilerOptions) (cache : Option ExprCache),
      jsTypeof v ≠ "string" →
      compileExpression v opts cache
        = .error ⟨"TypeError",
            "src must be a string, instead saw \x27" ++ jsTypeof v ++ "\x27"⟩)
    ∧ (∀ (s : String) (opts : IExpressionCompilerOptions) (c : ExprCache)
        (hit : CExpr),
      exprCacheLookup c s = some hit →
      compileExpression (.str s) opts (some c) = .ok (hit, some c))
    ∧ (∀ (s : String) (opts : IExpressionCompilerOptions) (c : ExprCache)
        (ce : CExpr),
      exprCacheLookup c s = none → parse s opts = .ok ce →
      compileExpression (.str s) opts (some c) = .ok (ce, some ((s, ce) :: c)))
    ∧ (∀ (s : String) (opts : IExpressionCompilerOptions),
      compileExpression (.str s) opts none
        = (parse s opts).map (fun ce => (ce, none))) := by
  refine ⟨?_, ?_, ?_, fun s opts => rfl⟩
  · intro v opts cache hv
    cases v <;> simp_all [compileExpression, jsTypeof]
  · intro s opts c hit hlook
    simp [compileExpression, hlook]
  · intro s opts c ce hlook hparse
    simp [compileExpression, hlook, hparse, Except.map]

/-- Witness for C8 at concrete inputs: a numeric source raises the
`TypeError`, and a one-entry cache answers its own key unchanged. -/
theorem c8_compile_expression_cache_witness :
    compileExpression (.num 1) ⟨false⟩ none
      = .error ⟨"TypeError", "src must be a string, instead saw \x27number\x27"⟩
    ∧ compileExpression (.str "k") ⟨false⟩ (some [("k", dummyCExpr)])
      = .ok (dummyCExpr, some [("k", dummyCExpr)]) :=
  ⟨c8_compile_expression_cache.1 (.num 1) ⟨false⟩ none (by decide),
    c8_compile_expression_cache.2.1 "k" ⟨false⟩ [("k", dummyCExpr)] dummyCExpr rfl⟩

/-- Witness for C10 at concrete inputs: a call for the path `a` on the
empty cache keeps the invariant, a stored getter is returned unchanged,
and a `hasOwnProperty` call leaves the empty cache empty. -/
theorem c10_getter_cache_invariant_witness :
    getterCacheHasKey (getterCacheAfter [] "a" "a") "hasOwnProperty" = false
    ∧ getterFn [("p", fun _ _ => .ok .undef)] "p" "p"
      = .ok ((fun _ _ => .ok .undef : GetterFn), [("p", fun _ _ => .ok .undef)])
    ∧ getterFn [] "hasOwnProperty" "hasOwnProperty"
      = (getterFnBuild "hasOwnProperty" "hasOwnProperty").map (fun fn => (fn, [])) :=
  ⟨c10_getter_cache_invariant.1 [] "a" "a" rfl,
    c10_getter_cache_invariant.2.2.2.1 [] "p" "p" (fun _ _ => .ok .undef),
    c10_getter_cache_invariant.2.2.2.2 [] "hasOwnProperty" rfl⟩

end WebRx
